import Mathlib

/-!
Verification development for the workflow-automation engine of this repository.

The TypeScript sources are shallowly embedded: JavaScript values are modelled by
the inductive `Value`, JavaScript numbers (IEEE doubles) by `JsNum` (a rational
together with NaN and the two infinities), and JavaScript `Date` objects by an
optional integer millisecond timestamp (`none` models an Invalid Date).

Modelling conventions for JavaScript built-ins (all noted where used):
* the local timezone is fixed to UTC, so `getHours`/local `Date` construction
  coincide with their UTC counterparts;
* `Date.parse` is modelled by the ECMA-262 ISO-8601 subset (`YYYY`, `YYYY-MM`,
  `YYYY-MM-DD`, optionally followed by `THH:mm[:ss[.sss]][Z]`); the lenient
  implementation-defined formats are not modelled — the strings exercised by the
  theorems below are either ISO strings, bare time strings, bare integers, or
  strings on which every implementation returns NaN;
* `Number(string)` supports signed decimal notation and `Infinity` (hexadecimal
  and exponent notation are not exercised and not modelled);
* number-to-string conversion is exact for every number produced in this
  development (integers and terminating decimals);
* `RegExp` and the legacy `new Function` predicate evaluation are abstracted as
  oracle parameters, since arbitrary regular-expression matching and JavaScript
  evaluation are outside the embedded fragment.
-/

namespace Workflow

/-- JavaScript number (IEEE double) modelled as a rational with NaN and infinities. -/
inductive JsNum where
  | nan
  | inf (pos : Bool)
  | fin (q : ℚ)
  deriving DecidableEq

namespace JsNum

/-- `Number.isNaN`. -/
def isNaN : JsNum → Bool
  | nan => true
  | _ => false

/-- JavaScript `<` on numbers: any comparison involving NaN is false. -/
def jlt : JsNum → JsNum → Bool
  | nan, _ => false
  | _, nan => false
  | inf true, _ => false
  | inf false, inf false => false
  | inf false, _ => true
  | fin _, inf true => true
  | fin _, inf false => false
  | fin a, fin b => decide (a < b)

/-- JavaScript `<=` on numbers: false if either side is NaN, otherwise `¬ (y < x)`. -/
def jle (x y : JsNum) : Bool :=
  !(x.isNaN || y.isNaN) && !(jlt y x)

/-- `Math.min` on two numbers: NaN-propagating. -/
def jmin (x y : JsNum) : JsNum :=
  if x.isNaN || y.isNaN then nan else if jle x y then x else y

/-- `Math.max` on two numbers: NaN-propagating. -/
def jmax (x y : JsNum) : JsNum :=
  if x.isNaN || y.isNaN then nan else if jle x y then y else x

end JsNum

/-- JavaScript runtime value. A `date` carries its millisecond timestamp;
`none` models an Invalid Date. -/
inductive Value where
  | jsUndefined
  | null
  | bool (b : Bool)
  | num (n : JsNum)
  | str (s : String)
  | date (t : Option Int)
  | arr (elems : List Value)
  | obj (fields : List (String × Value))

/-- JavaScript truthiness (`Boolean(v)`). -/
def jsTruthy : Value → Bool
  | .jsUndefined => false
  | .null => false
  | .bool b => b
  | .num n =>
    match n with
    | .nan => false
    | .inf _ => true
    | .fin q => decide (q ≠ 0)
  | .str s => !(s = "")
  | .date _ => true
  | .arr _ => true
  | .obj _ => true

/-- `typeof v !== 'undefined'`. -/
def isDefined : Value → Bool
  | .jsUndefined => false
  | _ => true

/-! Kernel-reducible implementations of a few basic String/ℚ operations: the
library versions use byte-position internals or `@[irreducible]` arithmetic
that concrete witnesses could not evaluate; these are plain structural
recursions with the same semantics. -/

/-- `String.trim` (drop leading/trailing whitespace). -/
def jsTrimStr (s : String) : String :=
  ⟨((s.data.dropWhile Char.isWhitespace).reverse.dropWhile Char.isWhitespace).reverse⟩

/-- `String.toLower`. -/
def lowerStr (s : String) : String :=
  ⟨s.data.map Char.toLower⟩

/-- Split worker for `splitChar`. -/
def splitCharGo (sep : Char) : List Char → List Char → List String
  | [], cur => [⟨cur.reverse⟩]
  | c :: rest, cur =>
    if c = sep then ⟨cur.reverse⟩ :: splitCharGo sep rest []
    else splitCharGo sep rest (c :: cur)

/-- `String.splitOn` with a single-character separator. -/
def splitChar (s : String) (sep : Char) : List String :=
  splitCharGo sep s.data []

/-- `String.startsWith`. -/
def strStartsWith (s p : String) : Bool :=
  p.data.isPrefixOf s.data

/-- `String.endsWith`. -/
def strEndsWith (s p : String) : Bool :=
  p.data.reverse.isPrefixOf s.data.reverse

/-- Numeric value of a digit list (most significant first). -/
def digitsVal (cs : List Char) : Nat :=
  cs.foldl (fun a c => a * 10 + (c.toNat - 48)) 0

/-- `String.toNat?`. -/
def parseNatStr (s : String) : Option Nat :=
  if ¬ s.data.isEmpty ∧ s.data.all Char.isDigit then some (digitsVal s.data) else none

/-- `q * 10^k` without the `@[irreducible]` rational multiplication. -/
def ratMulPow10 (q : ℚ) (k : Nat) : ℚ :=
  mkRat (q.num * ((10 : Nat) ^ k : Nat)) q.den

/-- `q * 1000` without the `@[irreducible]` rational multiplication. -/
def ratMul1000 (q : ℚ) : ℚ :=
  mkRat (q.num * 1000) q.den

/-- The rational `ip.fr` given integer-part and fraction-part digit lists. -/
def fracOfDigits (ip fr : List Char) : ℚ :=
  mkRat (digitsVal ip * 10 ^ fr.length + digitsVal fr) (10 ^ fr.length)

/-- Smallest `k` (searched up to 40) with `q * 10^k` integral, for decimal rendering. -/
def decExponent (q : ℚ) : Option Nat :=
  (List.range 40).find? (fun k => (ratMulPow10 q k).den = 1)

/-- Left-pad a string with zeros to the given width. -/
def padZeros (s : String) (width : Nat) : String :=
  ⟨List.replicate (width - s.length) '0'⟩ ++ s

/-- Render a rational as JavaScript renders the corresponding double.
Exact for integers and terminating decimals (the only numbers produced here). -/
def ratDec (q : ℚ) : String :=
  if q.den = 1 then toString q.num
  else
    match decExponent q with
    | some k =>
      let n := (ratMulPow10 q k).num
      let a := n.natAbs
      let ip := a / 10 ^ k
      let fp := a % 10 ^ k
      (if n < 0 then "-" else "") ++ toString ip ++ "." ++ padZeros (toString fp) k
    | none => "0"

/-- `String(n)` for a JavaScript number. -/
def jsNumRepr : JsNum → String
  | .nan => "NaN"
  | .inf true => "Infinity"
  | .inf false => "-Infinity"
  | .fin q => ratDec q

/-! ### Calendar arithmetic (proleptic Gregorian, UTC model) -/

/-- Days since the Unix epoch for a civil date (Howard Hinnant's algorithm,
month 1-based, any integer year). -/
def daysFromCivil (y m d : Int) : Int :=
  let y2 := y - (if m ≤ 2 then 1 else 0)
  let era := y2.fdiv 400
  let yoe := y2 - era * 400
  let mp := m + (if m > 2 then (-3 : Int) else 9)
  let doy := (153 * mp + 2).fdiv 5 + d - 1
  let doe := yoe * 365 + yoe.fdiv 4 - yoe.fdiv 100 + doy
  era * 146097 + doe - 719468

/-- Civil date `(year, month, day)` from days since the Unix epoch. -/
def civilFromDays (z0 : Int) : Int × Int × Int :=
  let z := z0 + 719468
  let era := z.fdiv 146097
  let doe := z - era * 146097
  let yoe := (doe - doe.fdiv 1460 + doe.fdiv 36524 - doe.fdiv 146096).fdiv 365
  let y := yoe + era * 400
  let doy := doe - (365 * yoe + yoe.fdiv 4 - yoe.fdiv 100)
  let mp := (5 * doy + 2).fdiv 153
  let d := doy - (153 * mp + 2).fdiv 5 + 1
  let m := mp + (if mp < 10 then 3 else (-9 : Int))
  (y + (if m ≤ 2 then 1 else 0), m, d)

/-- `MakeDay`: JavaScript `new Date(year, month, day, …)` month/day rollover
(month 0-based, arbitrary integers). -/
def jsMakeDay (year month day : Int) : Int :=
  let ym := year * 12 + month
  daysFromCivil (ym.fdiv 12) (ym.emod 12 + 1) 1 + (day - 1)

/-- Millisecond timestamp of a local (= UTC in this model) date-time built by
the `Date(year, month, day, hh, mm, ss)` constructor, before `TimeClip`. -/
def jsMakeDate (year month day hh mm ss : Int) : Int :=
  jsMakeDay year month day * 86400000 + hh * 3600000 + mm * 60000 + ss * 1000

/-- ECMA `TimeClip`: timestamps beyond ±8.64e15 ms yield an Invalid Date. -/
def timeClip (t : Int) : Option Int :=
  if t.natAbs ≤ 8640000000000000 then some t else none

/-- Truncate a rational toward zero (JavaScript `ToIntegerOrInfinity` on a finite value). -/
def ratTrunc (q : ℚ) : Int :=
  q.num / (q.den : Int)

/-- Number of days in a month of a given year. -/
def daysInMonth (y m : Int) : Int :=
  if m = 2 then
    (if y.emod 4 = 0 ∧ (y.emod 100 ≠ 0 ∨ y.emod 400 = 0) then 29 else 28)
  else if m = 4 ∨ m = 6 ∨ m = 9 ∨ m = 11 then 30
  else 31

/-- ISO timestamp string `YYYY-MM-DDTHH:mm:ss.sssZ` (Date.prototype.toISOString,
years outside 0–9999 not specially formatted — not exercised). -/
def toISOString (ms : Int) : String :=
  let days := ms.fdiv 86400000
  let tod := ms.emod 86400000
  let c := civilFromDays days
  let hh := tod.fdiv 3600000
  let mm := (tod.emod 3600000).fdiv 60000
  let ss := (tod.emod 60000).fdiv 1000
  let f := tod.emod 1000
  padZeros (toString c.1) 4 ++ "-" ++ padZeros (toString c.2.1) 2 ++ "-" ++
    padZeros (toString c.2.2) 2 ++ "T" ++ padZeros (toString hh) 2 ++ ":" ++
    padZeros (toString mm) 2 ++ ":" ++ padZeros (toString ss) 2 ++ "." ++
    padZeros (toString f) 3 ++ "Z"

/-- `String(d)` for a Date. Format simplified to the ISO rendering (the verbose
locale rendering is never compared against in the embedded code paths). -/
def dateToHumanString : Option Int → String
  | none => "Invalid Date"
  | some ms => toISOString ms

mutual

/-- `String(v)` (JavaScript ToString). Arrays render as `Array.prototype.join(",")`,
where `null`/`undefined` elements render as the empty string. -/
def jsToString : Value → String
  | .jsUndefined => "undefined"
  | .null => "null"
  | .bool true => "true"
  | .bool false => "false"
  | .num n => jsNumRepr n
  | .str s => s
  | .date t => dateToHumanString t
  | .arr xs => String.intercalate "," (jsElemStrings xs)
  | .obj _ => "[object Object]"

def jsElemStrings : List Value → List String
  | [] => []
  | .jsUndefined :: rest => "" :: jsElemStrings rest
  | .null :: rest => "" :: jsElemStrings rest
  | v :: rest => jsToString v :: jsElemStrings rest

end

/-- Decimal body of `Number(string)`: `digits`, `digits.digits`, `.digits` or `digits.`
(must consume the whole input). -/
def parseDecCore (cs : List Char) : Option ℚ :=
  let ip := cs.takeWhile Char.isDigit
  let rest := cs.drop ip.length
  match rest with
  | [] => if ip.isEmpty then none else some ((digitsVal ip : ℚ))
  | '.' :: fr =>
    if fr.all Char.isDigit ∧ (¬ ip.isEmpty ∨ ¬ fr.isEmpty) then
      some (fracOfDigits ip fr)
    else none
  | _ => none

/-- `Number(string)` (ECMA StringToNumber): trimmed, empty string is 0, signed
decimal or `Infinity`; hexadecimal and exponent notation are not modelled
(never exercised in this development). -/
def strToNumber (s : String) : JsNum :=
  let t := jsTrimStr s
  if t = "" then .fin 0
  else
    let p : Bool × List Char :=
      match t.data with
      | '-' :: r => (true, r)
      | '+' :: r => (false, r)
      | r => (false, r)
    if p.2 = "Infinity".data then .inf (!p.1)
    else
      match parseDecCore p.2 with
      | some q => .fin (if p.1 then -q else q)
      | none => .nan

/-- `Number(v)` (JavaScript ToNumber). -/
def jsToNumber : Value → JsNum
  | .jsUndefined => .nan
  | .null => .fin 0
  | .bool b => .fin (if b then 1 else 0)
  | .num n => n
  | .str s => strToNumber s
  | .date t =>
    match t with
    | some ms => .fin ms
    | none => .nan
  | .arr xs => strToNumber (jsToString (.arr xs))
  | .obj _ => .nan

/-- JSON string escaping (quotes, backslash and the common control characters;
other characters pass through verbatim — sufficient for every string built here). -/
def jsonEscape (s : String) : String :=
  ⟨s.data.foldr (fun c acc =>
    if c = '"' then '\\' :: '"' :: acc
    else if c = '\\' then '\\' :: '\\' :: acc
    else if c = '\n' then '\\' :: 'n' :: acc
    else if c = '\t' then '\\' :: 't' :: acc
    else if c = '\r' then '\\' :: 'r' :: acc
    else c :: acc) []⟩

mutual

/-- `JSON.stringify(v)`: `none` models the JavaScript `undefined` result.
NaN and the infinities serialize as `null`; `undefined` array elements serialize
as `null`; object entries with `undefined` values are dropped; Dates serialize
via `toISOString`. -/
def jsonStringify : Value → Option String
  | .jsUndefined => none
  | .null => some "null"
  | .bool b => some (if b then "true" else "false")
  | .num n =>
    some (match n with
      | .fin q => ratDec q
      | _ => "null")
  | .str s => some ("\"" ++ jsonEscape s ++ "\"")
  | .date t =>
    some (match t with
      | some ms => "\"" ++ toISOString ms ++ "\""
      | none => "null")
  | .arr xs => some ("[" ++ String.intercalate "," (jsonElems xs) ++ "]")
  | .obj fs => some ("\x7b" ++ String.intercalate "," (jsonFields fs) ++ "\x7d")

def jsonElems : List Value → List String
  | [] => []
  | v :: r =>
    (match jsonStringify v with
     | some s => s
     | none => "null") :: jsonElems r

def jsonFields : List (String × Value) → List String
  | [] => []
  | (k, v) :: r =>
    match jsonStringify v with
    | some s => ("\"" ++ jsonEscape k ++ "\":" ++ s) :: jsonFields r
    | none => jsonFields r

end

/-- Source: part_003 `deepEqual` — structural equality by canonical JSON
serialization (`JSON.stringify(a) === JSON.stringify(b)`; the `catch` fallback is
unreachable for the acyclic values modelled here). -/
def deepEqual (a b : Value) : Bool :=
  jsonStringify a == jsonStringify b

/-- Skip JSON whitespace. -/
def skipWs (cs : List Char) : List Char :=
  cs.dropWhile (fun c => c = ' ' || c = '\n' || c = '\t' || c = '\r')

/-- Hexadecimal digit value. -/
def hexVal (c : Char) : Option Nat :=
  if c.isDigit then some (c.toNat - 48)
  else if 'a' ≤ c ∧ c ≤ 'f' then some (c.toNat - 87)
  else if 'A' ≤ c ∧ c ≤ 'F' then some (c.toNat - 55)
  else none

/-- JSON string body after the opening quote: returns the decoded characters and
the rest of the input. -/
def jsonStringChars : List Char → Option (List Char × List Char)
  | [] => none
  | '"' :: r => some ([], r)
  | '\\' :: 'u' :: h1 :: h2 :: h3 :: h4 :: r =>
    match hexVal h1, hexVal h2, hexVal h3, hexVal h4 with
    | some a, some b, some c, some d =>
      (jsonStringChars r).map (fun p => (Char.ofNat (((a * 16 + b) * 16 + c) * 16 + d) :: p.1, p.2))
    | _, _, _, _ => none
  | '\\' :: e :: r =>
    let c? : Option Char :=
      if e = '"' then some '"'
      else if e = '\\' then some '\\'
      else if e = '/' then some '/'
      else if e = 'n' then some '\n'
      else if e = 't' then some '\t'
      else if e = 'r' then some '\r'
      else if e = 'b' then some (Char.ofNat 8)
      else if e = 'f' then some (Char.ofNat 12)
      else none
    match c? with
    | some c => (jsonStringChars r).map (fun p => (c :: p.1, p.2))
    | none => none
  | c :: r => (jsonStringChars r).map (fun p => (c :: p.1, p.2))

/-- JSON number token (sign and decimal body; exponent notation is not modelled). -/
def jsonNumberTok (cs : List Char) : Option (Value × List Char) :=
  let p : Bool × List Char :=
    match cs with
    | '-' :: r => (true, r)
    | r => (false, r)
  let body := p.2.takeWhile (fun c => c.isDigit || c = '.')
  if body.isEmpty then none
  else
    match parseDecCore body with
    | some q => some (.num (.fin (if p.1 then -q else q)), p.2.drop body.length)
    | none => none

mutual

/-- Fuel-indexed JSON value parser (`JSON.parse` model). -/
def jsonVal : Nat → List Char → Option (Value × List Char)
  | 0, _ => none
  | fuel + 1, cs =>
    match skipWs cs with
    | 'n' :: 'u' :: 'l' :: 'l' :: r => some (.null, r)
    | 't' :: 'r' :: 'u' :: 'e' :: r => some (.bool true, r)
    | 'f' :: 'a' :: 'l' :: 's' :: 'e' :: r => some (.bool false, r)
    | '"' :: r =>
      match jsonStringChars r with
      | some p => some (.str ⟨p.1⟩, p.2)
      | none => none
    | '[' :: r =>
      (match skipWs r with
       | ']' :: r2 => some (.arr [], r2)
       | r2 =>
         match jsonArrItems fuel r2 with
         | some p => some (.arr p.1, p.2)
         | none => none)
    | '{' :: r =>
      (match skipWs r with
       | '}' :: r2 => some (.obj [], r2)
       | r2 =>
         match jsonObjItems fuel r2 with
         | some p => some (.obj p.1, p.2)
         | none => none)
    | cs2 => jsonNumberTok cs2

/-- Comma-separated JSON array elements up to the closing bracket. -/
def jsonArrItems : Nat → List Char → Option (List Value × List Char)
  | 0, _ => none
  | fuel + 1, cs =>
    match jsonVal fuel cs with
    | none => none
    | some (v, r) =>
      match skipWs r with
      | ',' :: r2 =>
        match jsonArrItems fuel r2 with
        | some p => some (v :: p.1, p.2)
        | none => none
      | ']' :: r2 => some ([v], r2)
      | _ => none

/-- Comma-separated JSON object entries up to the closing brace. -/
def jsonObjItems : Nat → List Char → Option (List (String × Value) × List Char)
  | 0, _ => none
  | fuel + 1, cs =>
    match skipWs cs with
    | '"' :: r =>
      match jsonStringChars r with
      | none => none
      | some (k, r2) =>
        match skipWs r2 with
        | ':' :: r3 =>
          match jsonVal fuel r3 with
          | none => none
          | some (v, r4) =>
            match skipWs r4 with
            | ',' :: r5 =>
              match jsonObjItems fuel r5 with
              | some p => some ((⟨k⟩, v) :: p.1, p.2)
              | none => none
            | '}' :: r5 => some ([(⟨k⟩, v)], r5)
            | _ => none
        | _ => none
    | _ => none

end

/-- `JSON.parse(s)`: `none` models a thrown `SyntaxError`. -/
def jsonParse (s : String) : Option Value :=
  match jsonVal (s.length + 2) s.data with
  | some (v, rest) => if skipWs rest = [] then some v else none
  | none => none

/-! ### Date/time string parsing (part_003) -/

/-- `s.replace(/:{2,}/g, ':')`: collapse runs of two or more colons to one. -/
def collapseColonsGo : List Char → Bool → List Char
  | [], _ => []
  | c :: rest, prevColon =>
    if c = ':' then
      (if prevColon then collapseColonsGo rest true else ':' :: collapseColonsGo rest true)
    else c :: collapseColonsGo rest false

/-- Collapse runs of colons in a string (the repo's double-colon typo fix). -/
def collapseColons (s : String) : String :=
  ⟨collapseColonsGo s.data false⟩

/-- Exactly `n` decimal digits from the front. -/
def takeDigits (n : Nat) (cs : List Char) : Option (Nat × List Char) :=
  let pre := cs.take n
  if pre.length = n ∧ pre.all Char.isDigit then some (digitsVal pre, cs.drop n)
  else none

/-- One or two decimal digits from the front (not followed by another digit). -/
def takeDigits12 (cs : List Char) : Option (Nat × List Char) :=
  let pre := cs.takeWhile Char.isDigit
  if pre.length = 1 ∨ pre.length = 2 then some (digitsVal pre, cs.drop pre.length)
  else none

/-- The regex `^(\d{1,2}):(\d{2})(?::(\d{2}))?$` on a character list. -/
def matchTimeOnly (cs : List Char) : Option (Int × Int × Int) :=
  match takeDigits12 cs with
  | none => none
  | some (hh, rest) =>
    match rest with
    | ':' :: rest2 =>
      match takeDigits 2 rest2 with
      | none => none
      | some (mm, rest3) =>
        match rest3 with
        | [] => some (hh, mm, 0)
        | ':' :: rest4 =>
          match takeDigits 2 rest4 with
          | some (ss, []) => some (hh, mm, ss)
          | _ => none
        | _ => none
    | _ => none

/-- Trailing time `(\d{2}):(\d{2})(?::(\d{2}))?$` for the slash/dash date formats. -/
def matchHMS (cs : List Char) : Option (Int × Int × Int) :=
  match takeDigits 2 cs with
  | none => none
  | some (hh, rest) =>
    match rest with
    | ':' :: rest2 =>
      match takeDigits 2 rest2 with
      | none => none
      | some (mm, rest3) =>
        match rest3 with
        | [] => some (hh, mm, 0)
        | ':' :: rest4 =>
          match takeDigits 2 rest4 with
          | some (ss, []) => some (hh, mm, ss)
          | _ => none
        | _ => none
    | _ => none

/-- A date/time separator accepted by the slash/dash formats. -/
def dateSep (c : Char) : Bool :=
  c = '/' || c = '-'

/-- Optional `\s+HH:mm[:ss]` tail: empty input means midnight. -/
def matchOptTime (cs : List Char) : Option (Int × Int × Int) :=
  match cs with
  | [] => some (0, 0, 0)
  | c :: rest =>
    if c.isWhitespace then matchHMS (rest.dropWhile Char.isWhitespace)
    else none

/-- The regex `^(\\d;4;)[slash or dash](\\d;1,2;)[slash or dash](\\d;1,2;)` with optional whitespace+`HH:mm[:ss]` tail. -/
def matchYMD (cs : List Char) : Option (Int × Int × Int × Int × Int × Int) :=
  match takeDigits 4 cs with
  | none => none
  | some (y, r1) =>
    match r1 with
    | s1 :: r2 =>
      if dateSep s1 then
        match takeDigits12 r2 with
        | none => none
        | some (mo, r3) =>
          match r3 with
          | s2 :: r4 =>
            if dateSep s2 then
              match takeDigits12 r4 with
              | none => none
              | some (d, r5) =>
                (matchOptTime r5).map (fun t => (y, mo, d, t.1, t.2.1, t.2.2))
            else none
          | [] => none
      else none
    | [] => none

/-- The regex `^(\\d;1,2;)[slash or dash](\\d;1,2;)[slash or dash](\\d;4;)` with optional whitespace+`HH:mm[:ss]` tail. -/
def matchDMY (cs : List Char) : Option (Int × Int × Int × Int × Int × Int) :=
  match takeDigits12 cs with
  | none => none
  | some (d, r1) =>
    match r1 with
    | s1 :: r2 =>
      if dateSep s1 then
        match takeDigits12 r2 with
        | none => none
        | some (mo, r3) =>
          match r3 with
          | s2 :: r4 =>
            if dateSep s2 then
              match takeDigits 4 r4 with
              | none => none
              | some (y, r5) =>
                (matchOptTime r5).map (fun t => (d, mo, y, t.1, t.2.1, t.2.2))
            else none
          | [] => none
      else none
    | [] => none

/-- The regex `^-?\d+$` (all-digit integer string, optional sign). -/
def matchIntString (cs : List Char) : Option Int :=
  match cs with
  | '-' :: r => if ¬ r.isEmpty ∧ r.all Char.isDigit then some (-(digitsVal r : Int)) else none
  | r => if ¬ r.isEmpty ∧ r.all Char.isDigit then some ((digitsVal r : Int)) else none

/-- ISO time tail `HH:mm[:ss[.fff]][Z]` after the `T`; returns milliseconds in the day. -/
def parseISOTime (cs : List Char) : Option Int :=
  match takeDigits 2 cs with
  | none => none
  | some (hh, r1) =>
    if hh ≥ 24 then none
    else
      match r1 with
      | ':' :: r2 =>
        match takeDigits 2 r2 with
        | none => none
        | some (mm, r3) =>
          if mm ≥ 60 then none
          else
            let secPart : Option (Nat × Nat × List Char) :=
              match r3 with
              | ':' :: r4 =>
                match takeDigits 2 r4 with
                | none => none
                | some (ss, r5) =>
                  if ss ≥ 60 then none
                  else
                    match r5 with
                    | '.' :: r6 =>
                      let fs := r6.takeWhile Char.isDigit
                      if fs.isEmpty ∨ fs.length > 3 then none
                      else some (ss, digitsVal fs * 10 ^ (3 - fs.length), r6.drop fs.length)
                    | _ => some (ss, 0, r5)
              | _ => some (0, 0, r3)
            match secPart with
            | none => none
            | some (ss, ms, rest) =>
              match rest with
              | [] => some ((hh : Int) * 3600000 + mm * 60000 + ss * 1000 + ms)
              | ['Z'] => some ((hh : Int) * 3600000 + mm * 60000 + ss * 1000 + ms)
              | _ => none
      | _ => none

/-- `Date.parse` model: the ECMA-262 ISO-8601 subset (`YYYY`, `YYYY-MM`,
`YYYY-MM-DD`, each optionally followed by `THH:mm[:ss[.sss]][Z]`); date-only and
date-time forms are both interpreted as UTC (the local timezone is UTC in this
model). Strings outside this subset yield `none` (NaN). -/
def dateParse (s : String) : Option Int :=
  match takeDigits 4 s.data with
  | none => none
  | some (y, r1) =>
    let finish : Int → Int → Int → List Char → Option Int := fun yy mo d rest =>
      if mo < 1 ∨ mo > 12 ∨ d < 1 ∨ d > daysInMonth yy mo then none
      else
        let base := daysFromCivil yy mo d * 86400000
        match rest with
        | [] => some base
        | 'T' :: tr => (parseISOTime tr).map (fun t => base + t)
        | _ => none
    match r1 with
    | [] => finish y 1 1 []
    | '-' :: r2 =>
      match takeDigits 2 r2 with
      | none => none
      | some (mo, r3) =>
        match r3 with
        | '-' :: r4 =>
          match takeDigits 2 r4 with
          | none => none
          | some (d, r5) => finish y mo d r5
        | r5 => finish y mo 1 r5
    | r2 => finish y 1 1 r2

/-- A constructed timestamp after `TimeClip` and the `isNaN` check. -/
def mkClipped (t : Int) : JsNum :=
  match timeClip t with
  | some x => .fin x
  | none => .nan

/-- The time-only branch of `parseDateToTimestamp`: `new Date(now.getFullYear(),
now.getMonth(), now.getDate(), hh, mm, ss)` (local = UTC model). -/
def timeOnlyToTs (now hh mm ss : Int) : JsNum :=
  let c := civilFromDays (now.fdiv 86400000)
  mkClipped (jsMakeDate c.1 (c.2.1 - 1) c.2.2 hh mm ss)

/-- Source: part_003 `parseDateToTimestamp`, string portion: try `Date.parse`,
then the time-only pattern (anchored to today), then `YYYY/MM/DD`-style and
`DD/MM/YYYY`-style patterns (with JavaScript month/day rollover), then bare
integer strings under the seconds/milliseconds magnitude heuristic. -/
def parseStrToTimestamp (now : Int) (s0 : String) : JsNum :=
  if s0 = "" then .nan
  else
    let s := collapseColons s0
    match dateParse s with
    | some t => .fin t
    | none =>
      match matchTimeOnly s.data with
      | some (hh, mm, ss) => timeOnlyToTs now hh mm ss
      | none =>
        match matchYMD s.data with
        | some (y, mo, d, hh, mm, ss) => mkClipped (jsMakeDate y (mo - 1) d hh mm ss)
        | none =>
          match matchDMY s.data with
          | some (d, mo, y, hh, mm, ss) => mkClipped (jsMakeDate y (mo - 1) d hh mm ss)
          | none =>
            match matchIntString s.data with
            | some n => .fin (((if n.natAbs < 100000000000 then n * 1000 else n : Int) : ℚ))
            | none => .nan

/-- Source: part_003 `parseDateToTimestamp`. Dates yield their own timestamp;
finite numbers use the `x < 1e11 ? x*1000 : x` seconds heuristic; everything
else goes through `String(x)` (strings are trimmed first). -/
def parseDateToTimestamp (now : Int) : Value → JsNum
  | .date t =>
    match t with
    | some ms => .fin ms
    | none => .nan
  | .num (.fin q) => if q < 100000000000 then .fin (ratMul1000 q) else .fin q
  | .num n => parseStrToTimestamp now (jsNumRepr n)
  | .str s => parseStrToTimestamp now (jsTrimStr s)
  | v => parseStrToTimestamp now (jsToString v)

/-- Source: part_003 `toTimestamp` (alias of `parseDateToTimestamp`). -/
def toTimestamp (now : Int) (x : Value) : JsNum :=
  parseDateToTimestamp now x

/-- Source: part_003 `isTimeOnlyString` — is the text only a time (HH:mm or HH:mm:ss)? -/
def isTimeOnlyString : Value → Bool
  | .str s => (matchTimeOnly (collapseColons (jsTrimStr s)).data).isSome
  | _ => false

/-- Source: part_003 `toTimeOfDayMs` — milliseconds within the (UTC-model) day,
NaN when parsing fails or the timestamp is clipped to an Invalid Date. -/
def toTimeOfDayMs (now : Int) (x : Value) : JsNum :=
  match parseDateToTimestamp now x with
  | .fin q =>
    match timeClip (ratTrunc q) with
    | some t => .fin (t.emod 86400000)
    | none => .nan
  | _ => .nan

/-- The repo's `ConditionValueKind`. -/
inductive VKind where
  | string
  | number
  | boolean
  | date
  | time
  | array
  | object
  deriving DecidableEq

/-- `s.replace(/\s+/g, '')`. -/
def stripWhitespace (s : String) : String :=
  ⟨s.data.filter (fun c => !c.isWhitespace)⟩

/-- Source: part_003 `inferValueKind` — guess the kind of a value. String inputs
that parse as a timestamp are `time` when they look like a bare time, else `date`. -/
def inferValueKind (now : Int) : Value → VKind
  | .arr _ => .array
  | .date _ => .date
  | .obj _ => .object
  | .bool _ => .boolean
  | .num n => if n.isNaN then .string else .number
  | .str s =>
    if (parseDateToTimestamp now (.str s)).isNaN then .string
    else if (matchTimeOnly (collapseColons (stripWhitespace s)).data).isSome then .time
    else .date
  | _ => .string

/-- `new Date(v)` for a single argument (string arguments go through the native
parse — not the repo's extended parser; other non-Date arguments through ToNumber). -/
def jsNewDate : Value → Option Int
  | .date t => t
  | .str s => dateParse (jsTrimStr s)
  | .arr xs => dateParse (jsTrimStr (jsToString (.arr xs)))
  | .obj _ => none
  | v =>
    match jsToNumber v with
    | .fin q => timeClip (ratTrunc q)
    | _ => none

/-- Source: part_003 `coerceToKind` — convert a value into the requested kind in
a forgiving way; conversion failures (a thrown `JSON.parse`) return the original. -/
def coerceToKind (now : Int) (v : Value) (kind : VKind) : Value :=
  match kind with
  | .number =>
    match v with
    | .num _ => v
    | _ => .num (jsToNumber v)
  | .boolean =>
    match v with
    | .bool _ => v
    | _ =>
      let s := jsToString v
      if lowerStr s = "true" then .bool true
      else if lowerStr s = "false" then .bool false
      else .bool (jsTruthy v)
  | .date =>
    match v with
    | .date _ => v
    | _ =>
      match parseDateToTimestamp now v with
      | .fin q => .date (timeClip (ratTrunc q))
      | _ => .date (jsNewDate v)
  | .time =>
    match parseDateToTimestamp now v with
    | .fin q => .date (timeClip (ratTrunc q))
    | _ => .date none
  | .array =>
    match v with
    | .arr _ => v
    | .str s =>
      (match jsonParse s with
       | some j => j
       | none => v)
    | _ => .arr [v]
  | .object =>
    match v with
    | .arr _ => v
    | .obj _ => v
    | .date _ => v
    | .str s =>
      (match jsonParse s with
       | some j => j
       | none => v)
    | .jsUndefined => .obj [("value", v)]
    | .null => .obj [("value", v)]
    | .bool _ => .obj [("value", v)]
    | .num _ => .obj [("value", v)]
  | .string =>
    match v with
    | .str _ => v
    | _ =>
      match jsonStringify v with
      | some s => .str s
      | none => .jsUndefined

/-- Source: part_003 `isValueEmpty` — null/undefined are empty; strings/arrays
by zero length; other objects (including Dates) by zero own enumerable keys. -/
def isValueEmpty : Value → Bool
  | .null => true
  | .jsUndefined => true
  | .arr xs => xs.isEmpty
  | .str s => s.data.isEmpty
  | .date _ => true
  | .obj fs => fs.isEmpty
  | _ => false

/-- Source: part_003 `parsePairValues` — accept a 2+-length array or a
comma-separated string and return a pair; otherwise the value is duplicated. -/
def parsePairValues (v : Value) : Value × Value :=
  match v with
  | .arr (a :: b :: _) => (a, b)
  | .str s =>
    (match (splitChar s ',').map jsTrimStr with
     | a :: b :: _ => (.str a, .str b)
     | _ => (v, v))
  | _ => (v, v)

/-- Execution context: per-node results and the free variable bag (spec §3;
the context type itself is declared outside src/, shape taken from the spec).
`vars` models the TypeScript `variables` map (`variables` is reserved in Lean). -/
structure ExecutionContext where
  results : List (String × Value)
  vars : List (String × Value)

/-- Ambient execution environment. `regexTest p s` models
`new RegExp(p).test(s)` (`none`: the constructor throws); `regexValid` whether
`new RegExp(p)` constructs; `evalFn` the legacy `new Function`-based boolean
expression evaluation of the If Condition node; `evalPred` the legacy
`new Function` per-item predicate of the Filter node (`Except.error`: the
construction or invocation throws). These are oracles: arbitrary JavaScript
evaluation is outside the embedded fragment. -/
structure Env where
  now : Int
  regexTest : String → String → Option Bool
  regexValid : String → Bool
  evalFn : String → ExecutionContext → Except String Value
  evalPred : String → Except String (Value → ExecutionContext → Bool)

/-- JavaScript `String.prototype.includes`. -/
def strIncludes (hay needle : String) : Bool :=
  hay.data.tails.any (fun t => needle.data.isPrefixOf t)

/-- The set of ordering/range comparators with date/time-aware semantics. -/
def DATE_TIME_COMPARATORS : List String :=
  ["before", "after", "on or before", "on or after", "is between", "is not between"]

/-- Source: part_003, the `is between` case body of `compareValues`: time-of-day
containment when the kind is `time` and all three values parse; otherwise
timestamp containment with min/max-normalized bounds when all three parse;
otherwise the raw numeric containment fallback (bounds in given order).
The `is not between` case is the pointwise negation of each return site. -/
def betweenCheck (now : Int) (kind : VKind) (l r0 r1 : Value) : Bool :=
  let timeRes : Option Bool :=
    if kind = VKind.time then
      let lt := toTimeOfDayMs now l
      let r0t := toTimeOfDayMs now r0
      let r1t := toTimeOfDayMs now r1
      if lt.isNaN || r0t.isNaN || r1t.isNaN then none
      else some (JsNum.jle (JsNum.jmin r0t r1t) lt && JsNum.jle lt (JsNum.jmax r0t r1t))
    else none
  match timeRes with
  | some b => b
  | none =>
    let lt := toTimestamp now l
    let r0t := toTimestamp now r0
    let r1t := toTimestamp now r1
    if !lt.isNaN && !r0t.isNaN && !r1t.isNaN then
      JsNum.jle (JsNum.jmin r0t r1t) lt && JsNum.jle lt (JsNum.jmax r0t r1t)
    else
      JsNum.jle (jsToNumber r0) (jsToNumber l) && JsNum.jle (jsToNumber l) (jsToNumber r1)

/-- JavaScript `in` operator restricted to own keys (prototype-chain lookups are
not modelled; for arrays the numeric indices and `length` are modelled). -/
def hasKeyIn (l : Value) (k : String) : Bool :=
  match l with
  | .obj fs => fs.any (fun f => f.1 = k)
  | .arr xs =>
    k = "length" ||
      (match parseNatStr k with
       | some i => decide (i < xs.length) && toString i = k
       | none => false)
  | _ => false

/-- `Object.prototype.hasOwnProperty` (own keys; same modelled fragment as `hasKeyIn`). -/
def hasOwnProp (l : Value) (k : String) : Bool :=
  hasKeyIn l k

/-- Source: part_003 `compareValues` — compare two values using the selected
comparator, with the unary fast path, the time-of-day kind upgrade for
date/time comparators, and kind coercion of both operands. -/
def compareValues (env : Env) (left : Value) (comparator : String) (right : Value) : Bool :=
  if comparator = "exists" then isDefined left
  else if comparator = "does not exist" then !(isDefined left)
  else if comparator = "is empty" then isValueEmpty left
  else if comparator = "is not empty" then !(isValueEmpty left)
  else if comparator = "is true" then jsTruthy left
  else if comparator = "is false" then !(jsTruthy left)
  else
    let rightIsPair := comparator = "is between" || comparator = "is not between"
    let kind0 := inferValueKind env.now left
    let kind :=
      if DATE_TIME_COMPARATORS.contains comparator then
        let rightLooksTime :=
          if rightIsPair then
            let rv := parsePairValues right
            isTimeOnlyString rv.1 && isTimeOnlyString rv.2
          else isTimeOnlyString right
        if isTimeOnlyString left || rightLooksTime then VKind.time else kind0
      else kind0
    let l := coerceToKind env.now left kind
    if comparator = "is between" then
      let rv := parsePairValues right
      betweenCheck env.now kind l (coerceToKind env.now rv.1 kind) (coerceToKind env.now rv.2 kind)
    else if comparator = "is not between" then
      let rv := parsePairValues right
      !(betweenCheck env.now kind l (coerceToKind env.now rv.1 kind) (coerceToKind env.now rv.2 kind))
    else
      let r := coerceToKind env.now right kind
      if comparator = "is equal to" then deepEqual l r
      else if comparator = "is not equal to" then !(deepEqual l r)
      else if comparator = "contains" then strIncludes (jsToString l) (jsToString r)
      else if comparator = "does not contain" then !(strIncludes (jsToString l) (jsToString r))
      else if comparator = "starts with" then strStartsWith (jsToString l) (jsToString r)
      else if comparator = "ends with" then strEndsWith (jsToString l) (jsToString r)
      else if comparator = "matches regex" then
        (match env.regexTest (jsToString r) (jsToString l) with
         | some b => b
         | none => false)
      else if comparator = "greater than" then JsNum.jlt (jsToNumber r) (jsToNumber l)
      else if comparator = "greater than or equal to" then JsNum.jle (jsToNumber r) (jsToNumber l)
      else if comparator = "less than" then JsNum.jlt (jsToNumber l) (jsToNumber r)
      else if comparator = "less than or equal to" then JsNum.jle (jsToNumber l) (jsToNumber r)
      else if comparator = "before" then
        (if kind = VKind.time then JsNum.jlt (toTimeOfDayMs env.now l) (toTimeOfDayMs env.now r)
         else JsNum.jlt (toTimestamp env.now l) (toTimestamp env.now r))
      else if comparator = "after" then
        (if kind = VKind.time then JsNum.jlt (toTimeOfDayMs env.now r) (toTimeOfDayMs env.now l)
         else JsNum.jlt (toTimestamp env.now r) (toTimestamp env.now l))
      else if comparator = "on or before" then
        (if kind = VKind.time then JsNum.jle (toTimeOfDayMs env.now l) (toTimeOfDayMs env.now r)
         else JsNum.jle (toTimestamp env.now l) (toTimestamp env.now r))
      else if comparator = "on or after" then
        (if kind = VKind.time then JsNum.jle (toTimeOfDayMs env.now r) (toTimeOfDayMs env.now l)
         else JsNum.jle (toTimestamp env.now r) (toTimestamp env.now l))
      else if comparator = "contains value" then
        (match l with
         | .arr xs => xs.any (fun x => deepEqual x r)
         | _ => strIncludes (jsToString l) (jsToString r))
      else if comparator = "length greater than" then
        (match l with
         | .arr xs => JsNum.jlt (jsToNumber r) (.fin xs.length)
         | .str s => JsNum.jlt (jsToNumber r) (.fin s.length)
         | _ => false)
      else if comparator = "length less than" then
        (match l with
         | .arr xs => JsNum.jlt (.fin xs.length) (jsToNumber r)
         | .str s => JsNum.jlt (.fin s.length) (jsToNumber r)
         | _ => false)
      else if comparator = "has key" then jsTruthy l && hasKeyIn l (jsToString r)
      else if comparator = "has property" then jsTruthy l && hasOwnProp l (jsToString r)
      else false

/-! ### Expression resolver (spec-modelled) -/

/-- One path segment of an expression: object field or array index access. -/
def getPathSeg (v : Value) (seg : String) : Value :=
  match v with
  | .obj fs => (fs.lookup seg).getD .jsUndefined
  | .arr xs =>
    (match parseNatStr seg with
     | some i => (xs.get? i).getD .jsUndefined
     | none => .jsUndefined)
  | _ => .jsUndefined

/-- Modelled from the spec: `evaluateExpression` lives in
`src/utilities/expression.ts`, which is not included under src/ (only its
importers are). Spec §4.2: a `$.path` expression is evaluated against the
context's `results` and `variables` stores and the raw value is returned.
Modelled as: strip the `$.` sentinel, look the root segment up in `variables`
then in `results`, then walk the remaining `.`-separated segments through
object fields / array indices; missing paths give `undefined`. -/
def evaluateExpression (expr : String) (ctx : ExecutionContext) : Value :=
  let t := jsTrimStr expr
  let path := if strStartsWith t "$." then t.drop 2 else t
  match splitChar path '.' with
  | [] => .jsUndefined
  | root :: fields =>
    let rootVal :=
      match ctx.vars.lookup root with
      | some v => v
      | none => (ctx.results.lookup root).getD .jsUndefined
    fields.foldl getPathSeg rootVal

/-- Characters of a template up to the closing double brace. -/
def templClose : List Char → Option (List Char × List Char)
  | [] => none
  | '}' :: '}' :: r => some ([], r)
  | c :: r => (templClose r).map (fun p => (c :: p.1, p.2))

/-- Fuel-indexed interpolation worker for `resolveTemplate`. -/
def resolveTemplateGo (ctx : ExecutionContext) : Nat → List Char → List Char
  | 0, cs => cs
  | _ + 1, [] => []
  | fuel + 1, '{' :: '{' :: rest =>
    (match templClose rest with
     | some (inner, after) =>
       (jsToString (evaluateExpression (jsTrimStr (⟨inner⟩ : String)) ctx)).data ++
         resolveTemplateGo ctx fuel after
     | none => '{' :: '{' :: resolveTemplateGo ctx fuel rest)
  | fuel + 1, c :: rest => c :: resolveTemplateGo ctx fuel rest

/-- Modelled from the spec: `resolveTemplate` lives in
`src/utilities/expression.ts`, which is not included under src/. Spec §4.2:
literal text with embedded double-brace templates, each evaluated and
stringified; the result is always a string. -/
def resolveTemplate (raw : String) (ctx : ExecutionContext) : String :=
  ⟨resolveTemplateGo ctx (raw.length + 1) raw.data⟩

/-- The single-mustache pattern of `resolveValue`: the whole trimmed string is
one double-brace template whose body contains no closing brace. -/
def singleMustache (t : String) : Option String :=
  if strStartsWith t "\x7b\x7b" ∧ strEndsWith t "\x7d\x7d" then
    let mid := (t.drop 2).dropRight 2
    if mid ≠ "" ∧ mid.data.all (fun c => c ≠ '}') then some mid else none
  else none

/-- Source: part_003 `resolveValue` — a `$.`-prefixed string evaluates as a raw
expression, a single full-string mustache evaluates raw, and mixed text
interpolates to a plain string. -/
def resolveValue (raw : String) (ctx : ExecutionContext) : Value :=
  let trimmed := jsTrimStr raw
  if strStartsWith trimmed "$." then evaluateExpression trimmed ctx
  else
    match singleMustache trimmed with
    | some inner => evaluateExpression inner ctx
    | none => .str (resolveTemplate raw ctx)

/-! ### Condition rows and the condition-category executors
(src/utilities/contextMenuUtils.ts, condition-nodes executor section) -/

/-- Node execution result (spec §3; the type itself is declared outside src/,
shape taken from the spec): `success`, optional `data` payload, optional `error`. -/
structure NodeExecutionResult where
  success : Bool
  data : Option Value := none
  error : Option String := none

/-- Condition row joiner (`'AND' | 'OR'`). -/
inductive Joiner where
  | AND
  | OR
  deriving DecidableEq

/-- A condition row: unresolved template strings for both operands, a comparator
name, and an optional joiner. -/
structure Row where
  left : String
  comparator : String
  right : String
  joiner : Option Joiner := none

/-- A Switch Case rule (no joiner). -/
structure SwitchRule where
  left : String
  comparator : String
  right : String

/-- Source: constants — comparator families (single source of truth). -/
def UNARY_COMPARATORS : List String :=
  ["exists", "does not exist", "is empty", "is not empty", "is true", "is false"]

/-- Source: constants — comparators whose right operand must be numeric. -/
def NUMERIC_RIGHT_COMPARATORS : List String :=
  ["greater than", "greater than or equal to", "less than", "less than or equal to",
   "length greater than", "length less than"]

/-- Source: constants — pair/range comparators. -/
def PAIR_COMPARATORS : List String :=
  ["is between", "is not between"]

/-- Source: constants — regular-expression comparators. -/
def REGEX_COMPARATORS : List String :=
  ["matches regex"]

/-- Source: constants — key/property comparators. -/
def KEY_PROP_COMPARATORS : List String :=
  ["has key", "has property"]

/-- The validator's blank test (its operands are always strings here). -/
def isBlankStr (s : String) : Bool :=
  (jsTrimStr s).length = 0

/-- `first == null` (loosely null or undefined). -/
def isNullish : Value → Bool
  | .null => true
  | .jsUndefined => true
  | _ => false

/-- Source: contextMenuUtils `validateRows`, one row: required left operand;
required right operand except for unary comparators; regex syntax, range pair,
numeric right and key/property checks, each gated on its comparator family. -/
def validateRow (env : Env) (ctx : ExecutionContext) (row : Row) (rowNumber : Nat) :
    Option NodeExecutionResult :=
  if isBlankStr row.left then
    some { success := false,
           error := some ("Row " ++ toString rowNumber ++ ": \"Value 1\" is required.") }
  else if ¬ UNARY_COMPARATORS.contains row.comparator ∧ isBlankStr row.right then
    some { success := false,
           error := some ("Row " ++ toString rowNumber ++ ": \"Value 2\" is required for \"" ++
             row.comparator ++ "\".") }
  else if REGEX_COMPARATORS.contains row.comparator ∧ ¬ isBlankStr row.right ∧
      ¬ env.regexValid (jsToString (resolveValue row.right ctx)) then
    some { success := false,
           error := some ("Row " ++ toString rowNumber ++
             ": Invalid regular expression in \"Value 2\".") }
  else if PAIR_COMPARATORS.contains row.comparator ∧ ¬ isBlankStr row.right then
    let p := parsePairValues (resolveValue row.right ctx)
    if isNullish p.1 || isNullish p.2 ||
        (jsToString p.1).length = 0 || (jsToString p.2).length = 0 then
      some { success := false,
             error := some ("Row " ++ toString rowNumber ++ ": \"" ++ row.comparator ++
               "\" expects two values (e.g., \"min,max\").") }
    else
      let leftResolved := resolveValue row.left ctx
      let numbersOk := !(jsToNumber p.1).isNaN && !(jsToNumber p.2).isNaN &&
        !(jsToNumber leftResolved).isNaN
      let datesOk := !(toTimestamp env.now p.1).isNaN && !(toTimestamp env.now p.2).isNaN &&
        !(toTimestamp env.now leftResolved).isNaN
      if !numbersOk && !datesOk then
        some { success := false,
               error := some ("Row " ++ toString rowNumber ++ ": \"" ++ row.comparator ++
                 "\" requires numeric or date values (e.g., \"10,20\" or \"2024-01-01,2024-12-31\").") }
      else none
  else if NUMERIC_RIGHT_COMPARATORS.contains row.comparator ∧ ¬ isBlankStr row.right then
    if (jsToNumber (resolveValue row.right ctx)).isNaN then
      some { success := false,
             error := some ("Row " ++ toString rowNumber ++
               ": \"Value 2\" must be a number for \"" ++ row.comparator ++ "\".") }
    else none
  else if KEY_PROP_COMPARATORS.contains row.comparator ∧ ¬ isBlankStr row.right then
    if jsTrimStr (jsToString (resolveValue row.right ctx)) = "" then
      some { success := false,
             error := some ("Row " ++ toString rowNumber ++
               ": \"Value 2\" must be a non-empty key/property name.") }
    else none
  else none

/-- The row-validation loop, carrying the 0-based index. -/
def validateRowsGo (env : Env) (ctx : ExecutionContext) :
    List Row → Nat → Option NodeExecutionResult
  | [], _ => none
  | row :: rest, index =>
    match validateRow env ctx row (index + 1) with
    | some e => some e
    | none => validateRowsGo env ctx rest (index + 1)

/-- Source: contextMenuUtils `validateRows` — validate condition rows and return
the first error, if any. -/
def validateRows (env : Env) (ctx : ExecutionContext) (rows : List Row) :
    Option NodeExecutionResult :=
  validateRowsGo env ctx rows 0

/-- One row's comparison: resolve both operands (the right one only for
non-unary comparators) and compare. -/
def rowCompare (env : Env) (ctx : ExecutionContext) (row : Row) : Bool :=
  let leftValue := resolveValue row.left ctx
  let rightValue :=
    if UNARY_COMPARATORS.contains row.comparator then Value.jsUndefined
    else resolveValue row.right ctx
  compareValues env leftValue row.comparator rightValue

/-- Result of `evaluateRows`. -/
structure RowsEval where
  cumulative : Bool
  rowResults : List Bool

/-- The row-folding loop of `evaluateRows`: at index 0 the cumulative result is
seeded with the row's own result; afterwards OR-joined rows fold with `||` and
all other rows with `&&`. -/
def evaluateRowsGo (env : Env) (ctx : ExecutionContext) :
    List Row → Nat → Bool → List Bool → Bool × List Bool
  | [], _, cumulative, acc => (cumulative, acc.reverse)
  | row :: rest, index, cumulative, acc =>
    let ok := rowCompare env ctx row
    let cum2 :=
      if index = 0 then ok
      else if row.joiner = some Joiner.OR then cumulative || ok
      else cumulative && ok
    evaluateRowsGo env ctx rest (index + 1) cum2 (ok :: acc)

/-- Source: contextMenuUtils `evaluateRows` — evaluate condition rows and fold
their results with AND/OR. -/
def evaluateRows (env : Env) (ctx : ExecutionContext) (rows : List Row) : RowsEval :=
  let p := evaluateRowsGo env ctx rows 0 true []
  { cumulative := p.1, rowResults := p.2 }

/-- Query-parameter row of the HTTP Request node. -/
structure QueryParam where
  key : String
  value : String

/-- A form field of the Form trigger (`type`, `label`, `options`; a `null` field
entry is modelled by an empty `ftype`). -/
structure FormField where
  ftype : String
  label : String
  options : List String

/-- The node's `settings.general` bag, restricted to the fields the embedded
executors read (absent fields default like absent JavaScript properties). -/
structure GeneralSettings where
  conditions : Option (List Row) := none
  condition : Option String := none
  rules : Option (List SwitchRule) := none
  enableDefaultPort : Bool := false
  input : Option String := none
  predicate : Option String := none
  filterCondition : Option String := none
  formTitle : String := ""
  formDescription : String := ""
  formFields : List FormField := []
  url : String := ""
  queryParams : List QueryParam := []
  headers : String := ""

/-- Node configuration (spec §3): category, concrete node type, settings. -/
structure NodeConfig where
  category : String
  nodeType : String
  general : GeneralSettings

/-- Source: conditionNodesExecutor `executeStopNode` — a graceful stop result
(the optional chat-response window event is a UI side effect outside the model). -/
def executeStopNode (env : Env) : NodeExecutionResult :=
  { success := true,
    data := some (.obj [("stopped", .bool true), ("reason", .str "Stop node executed"),
      ("at", .str (toISOString env.now))]) }

/-- Outcome of `getIfRows`: structured rows, or an immediate result
(missing-configuration failure or legacy-expression evaluation). -/
inductive RowsOrResult where
  | rows (rs : List Row)
  | result (r : NodeExecutionResult)

/-- Source: conditionNodesExecutor `getIfRows` — return structured rows or
evaluate a legacy boolean expression (via the `new Function` oracle; an oracle
error models the thrown exception caught by `executeIfConditionNode`). -/
def getIfRows (env : Env) (cfg : NodeConfig) (ctx : ExecutionContext) : RowsOrResult :=
  match cfg.general.conditions with
  | some (r :: rs) => .rows (r :: rs)
  | _ =>
    let raw := cfg.general.condition.getD ""
    let prepared := jsTrimStr (resolveTemplate raw ctx)
    if prepared = "" then
      .result { success := false,
                error := some "If Condition: Please configure at least one condition row or a valid expression." }
    else
      match env.evalFn prepared ctx with
      | .ok v =>
        .result { success := true,
                  data := some (.obj [("conditionResult", .bool (jsTruthy v)),
                    ("rowResults", .arr [.bool (jsTruthy v)]),
                    ("evaluatedAt", .str (toISOString env.now))]) }
      | .error e =>
        .result { success := false,
                  error := some ("If Condition execution failed: " ++ e) }

/-- Source: conditionNodesExecutor `executeIfConditionNode` — rows (or legacy
expression), validation, then the AND/OR fold. -/
def executeIfConditionNode (env : Env) (cfg : NodeConfig) (ctx : ExecutionContext) :
    NodeExecutionResult :=
  match getIfRows env cfg ctx with
  | .result r => r
  | .rows rows =>
    match validateRows env ctx rows with
    | some e => e
    | none =>
      let ev := evaluateRows env ctx rows
      { success := true,
        data := some (.obj [("conditionResult", .bool ev.cumulative),
          ("rowResults", .arr (ev.rowResults.map Value.bool)),
          ("evaluatedAt", .str (toISOString env.now))]) }

/-- One Switch Case rule's comparison. -/
def switchRuleEval (env : Env) (ctx : ExecutionContext) (r : SwitchRule) : Bool :=
  let leftVal := resolveValue r.left ctx
  let rightVal :=
    if UNARY_COMPARATORS.contains r.comparator then Value.jsUndefined
    else resolveValue r.right ctx
  compareValues env leftVal r.comparator rightVal

/-- The Switch Case scanning loop: first matching index (−1 if none) and all
row results in order. -/
def switchScanGo (env : Env) (ctx : ExecutionContext) :
    List SwitchRule → Nat → Int → List Bool → Int × List Bool
  | [], _, matched, acc => (matched, acc.reverse)
  | r :: rest, i, matched, acc =>
    let ok := switchRuleEval env ctx r
    let matched2 := if ok ∧ matched = -1 then (i : Int) else matched
    switchScanGo env ctx rest (i + 1) matched2 (ok :: acc)

/-- Source: conditionNodesExecutor `executeSwitchNode` — validate the rules,
evaluate them in order and take the first matching case; fall back to the
default port when enabled. -/
def executeSwitchNode (env : Env) (cfg : NodeConfig) (ctx : ExecutionContext) :
    NodeExecutionResult :=
  let rules := cfg.general.rules.getD []
  let enableDefault := cfg.general.enableDefaultPort
  if rules.isEmpty then
    { success := false, error := some "Switch Case: Please add at least one case." }
  else
    match validateRows env ctx (rules.map (fun r =>
        { left := r.left, comparator := r.comparator, right := r.right,
          joiner := some Joiner.OR })) with
    | some e => e
    | none =>
      let scan := switchScanGo env ctx rules 0 (-1) []
      let matchedIndex := scan.1
      let matchedPortId : Value :=
        if matchedIndex ≥ 0 then .str ("right-case-" ++ toString (matchedIndex + 1))
        else if enableDefault then .str "right-case-default"
        else .null
      { success := true,
        data := some (.obj [
          ("matchedCaseIndex", if matchedIndex ≥ 0 then .num (.fin matchedIndex) else .null),
          ("matchedPortId", matchedPortId),
          ("defaultTaken", .bool (decide (matchedIndex < 0) && enableDefault)),
          ("rowResults", .arr (scan.2.map Value.bool))]) }

/-- `typeof` result name used in the Filter/Loop type-error messages
(`resolved === null ? 'null' : typeof resolved`). -/
def typeofName : Value → String
  | .null => "null"
  | .jsUndefined => "undefined"
  | .bool _ => "boolean"
  | .num _ => "number"
  | .str _ => "string"
  | .date _ => "object"
  | .obj _ => "object"
  | .arr _ => "object"

/-- Source: conditionNodesExecutor `executeFilterNode` — resolve the list input,
then either run the structured rows per item (the item bound under the reserved
`item` variable in a copied context) or the legacy predicate oracle. Returns the
result together with the (unchanged) caller context. -/
def executeFilterNode (env : Env) (cfg : NodeConfig) (ctx : ExecutionContext) :
    NodeExecutionResult × ExecutionContext :=
  let inputExpr := jsTrimStr (cfg.general.input.getD "")
  if inputExpr = "" then
    ({ success := false, error := some "Filter: Please provide the Items (list) input." }, ctx)
  else
    match resolveValue inputExpr ctx with
    | .arr inputArr =>
      (match cfg.general.conditions with
       | some (r0 :: rs) =>
         (match validateRows env ctx (r0 :: rs) with
          | some e => (e, ctx)
          | none =>
            let filtered := inputArr.filter (fun item =>
              (evaluateRows env { ctx with vars := ("item", item) :: ctx.vars } (r0 :: rs)).cumulative)
            ({ success := true,
               data := some (.obj [("filtered", .arr filtered),
                 ("filteredCount", .num (.fin filtered.length))]) }, ctx))
       | _ =>
         let conditionRaw := cfg.general.predicate.getD (cfg.general.filterCondition.getD "")
         if conditionRaw = "" then
           ({ success := false,
              error := some "Filter: Please configure at least one condition row or a predicate." }, ctx)
         else
           let predicateStr := jsTrimStr (resolveTemplate conditionRaw ctx)
           match env.evalPred predicateStr with
           | .error e =>
             ({ success := false, error := some ("Filter execution failed: " ++ e) }, ctx)
           | .ok f =>
             let filtered := inputArr.filter (fun item => f item ctx)
             ({ success := true,
                data := some (.obj [("filtered", .arr filtered),
                  ("count", .num (.fin filtered.length))]) }, ctx))
    | v =>
      ({ success := false,
         error := some ("Filter: Items input must resolve to an array. Got " ++
           typeofName v ++ ".") }, ctx)

/-- Source: conditionNodesExecutor `executeLoopNode` — resolve the list input and
expose the first item's cursor fields, writing the cursor into
`context.results[nodeId]` (the internal `__runtime` item store is bookkeeping for
the orchestrator and is not part of the modelled result store). -/
def executeLoopNode (_env : Env) (nodeId : String) (cfg : NodeConfig)
    (ctx : ExecutionContext) : NodeExecutionResult × ExecutionContext :=
  let inputExpr := jsTrimStr (cfg.general.input.getD "")
  if inputExpr = "" then
    ({ success := false, error := some "Loop: Please provide the Items (list) input." }, ctx)
  else
    match resolveValue inputExpr ctx with
    | .arr items =>
      let total := items.length
      let cursorFields : List (String × Value) :=
        [("currentloopitem", items.headD (.obj [])),
         ("currentLoopIndex", if total > 0 then .num (.fin 0) else .null),
         ("currentLoopIteration", if total > 0 then .num (.fin 1) else .null),
         ("currentLoopCount", .num (.fin total)),
         ("currentLoopNodeId", .str nodeId),
         ("currentLoopIsFirst", if total > 0 then .bool true else .null),
         ("currentLoopIsLast", if total > 0 then .bool (total = 1) else .null)]
      let ctx2 : ExecutionContext := { ctx with results := (nodeId, .obj cursorFields) :: ctx.results }
      ({ success := true,
         data := some (.obj (("items", .arr items) :: ("count", .num (.fin total)) :: cursorFields)) },
       ctx2)
    | v =>
      ({ success := false,
         error := some ("Loop: Items input must resolve to an array. Got " ++
           typeofName v ++ ".") }, ctx)

/-- Source: conditionNodesExecutor `executeConditionCategory` — route condition
nodes to their handlers (executors that mutate the context return it). -/
def executeConditionCategory (env : Env) (nodeId : String) (cfg : NodeConfig)
    (ctx : ExecutionContext) : NodeExecutionResult × ExecutionContext :=
  if cfg.nodeType = "If Condition" then (executeIfConditionNode env cfg ctx, ctx)
  else if cfg.nodeType = "Switch Case" then (executeSwitchNode env cfg ctx, ctx)
  else if cfg.nodeType = "Filter" then executeFilterNode env cfg ctx
  else if cfg.nodeType = "Loop" then executeLoopNode env nodeId cfg ctx
  else if cfg.nodeType = "Stop" then (executeStopNode env, ctx)
  else ({ success := false,
          error := some ("Unsupported condition node type: " ++ cfg.nodeType) }, ctx)

/-! ### Trigger-category executors (part_004, trigger section).
Waiting on the `wf:form:*` / `wf:chat:*` window events is modelled by an
outcome parameter describing which event resolved the pending wait first. -/

/-- How a pending Form-trigger wait was resolved: a `wf:form:submitted` event
(with its values and optional timestamp) or a `wf:form:cancel` event. -/
inductive FormOutcome where
  | submitted (values : List String) (atTs : Option String)
  | cancelled

/-- How a pending Chat-trigger wait was resolved: the first non-empty
`wf:chat:message` text, or a `wf:chat:cancel` event. -/
inductive ChatOutcome where
  | message (text : String) (atTs : Option String)
  | cancelled

/-- Source: triggerNodesExecutor `waitForFormSubmit` — the pending wait resolves
with the submitted values (timestamp defaulted to now) or rejects with the
`Form trigger cancelled` error. -/
def waitForFormSubmit (env : Env) (outcome : FormOutcome) :
    Except String (List String × String) :=
  match outcome with
  | .submitted values atTs => .ok (values, atTs.getD (toISOString env.now))
  | .cancelled => .error "Form trigger cancelled"

/-- Source: triggerNodesExecutor `validateFormConfig`, per-field test: missing
type, blank label, or a dropdown without non-blank options. -/
def formFieldInvalid (f : FormField) : Bool :=
  f.ftype = "" || jsTrimStr f.label = "" ||
    (f.ftype = "dropdown" && (f.options.filter (fun o => jsTrimStr o ≠ "")).isEmpty)

/-- Source: triggerNodesExecutor `validateFormConfig` — `none` means valid. -/
def validateFormConfig (title : String) (fields : List FormField) : Option String :=
  if title = "" || fields.isEmpty || fields.any formFieldInvalid then
    some "Form trigger misconfigured. Ensure title and valid fields (labels, options for dropdowns) are set."
  else none

/-- Weekday names used by `buildDateDetails`. -/
def weekdayName (wd : Int) : String :=
  (["Sunday", "Monday", "Tuesday", "Wednesday", "Thursday", "Friday", "Saturday"].get? wd.toNat).getD ""

/-- Source: triggerNodesExecutor `buildDateDetails` — limited date details
(UTC-model calendar components). -/
def buildDateDetailFields (ms : Int) : List (String × Value) :=
  let days := ms.fdiv 86400000
  let c := civilFromDays days
  let wd := (days + 4).emod 7
  [("year", .num (.fin c.1)), ("month", .num (.fin c.2.1)), ("day", .num (.fin c.2.2)),
   ("weekday", .num (.fin wd)), ("weekdayName", .str (weekdayName wd))]

/-- Source: triggerNodesExecutor `slugify` — lower-case, non-alphanumeric runs
to a single underscore, then strip boundary underscores. -/
def slugChar (c : Char) : Bool :=
  c.isDigit || ('a' ≤ c ∧ c ≤ 'z')

/-- Replace runs of non-alphanumeric characters with one underscore. -/
def slugGo : List Char → Bool → List Char
  | [], _ => []
  | c :: r, prev =>
    if slugChar c then c :: slugGo r false
    else if prev then slugGo r true
    else '_' :: slugGo r true

/-- Strip leading and trailing underscores. -/
def stripUnderscores (cs : List Char) : List Char :=
  ((cs.dropWhile (· = '_')).reverse.dropWhile (· = '_')).reverse

/-- The slug of a form label. -/
def slugify (s : String) : String :=
  ⟨stripUnderscores (slugGo (lowerStr (jsTrimStr s)).data false)⟩

/-- One mapped form value row (label, type, raw value, optional date details). -/
structure FormValueRow where
  label : String
  ftype : String
  value : String
  details : Option (List (String × Value))

/-- Source: triggerNodesExecutor `mapFormValues` — pair each field with its
submitted value; date fields with a parseable value also carry date details. -/
def mapFormValues (fields : List FormField) (values : List String) : List FormValueRow :=
  (fields.enum).map (fun p =>
    let f := p.2
    let rawVal := (values.get? p.1).getD ""
    let details :=
      if f.ftype = "date" ∧ rawVal ≠ "" then
        match jsNewDate (.str rawVal) with
        | some ms => some (buildDateDetailFields ms)
        | none => none
      else none
    { label := f.label, ftype := f.ftype, value := rawVal, details := details })

/-- A mapped form value row as the payload value the executor returns. -/
def formValueRowToValue (r : FormValueRow) : Value :=
  match r.details with
  | some d =>
    .obj [("label", .str r.label), ("type", .str r.ftype), ("value", .str r.value),
      ("details", .obj d)]
  | none =>
    .obj [("label", .str r.label), ("type", .str r.ftype), ("value", .str r.value)]

/-- Source: triggerNodesExecutor `buildFormDataDictionary` — dictionary keyed by
slugified label; date values expand to `value` plus date details. Assignment
overrides earlier entries, modelled by prepending (lookup takes the first hit). -/
def buildFormDataDictionary : List FormValueRow → List (String × Value)
  | [] => []
  | r :: rest =>
    let key := slugify r.label
    let entry : Value :=
      if r.ftype = "date" ∧ r.value ≠ "" then
        match jsNewDate (.str r.value) with
        | some ms => .obj (("value", .str r.value) :: buildDateDetailFields ms)
        | none => .str r.value
      else .str r.value
    (key, entry) :: buildFormDataDictionary rest

/-- A form field as a payload value. -/
def formFieldToValue (f : FormField) : Value :=
  .obj [("type", .str f.ftype), ("label", .str f.label),
    ("options", .arr (f.options.map Value.str))]

/-- Source: triggerNodesExecutor `executeFormTriggerNode` — validate the form
configuration, wait for submit/cancel, map the values, build the dictionary. A
cancellation rejects the wait and is returned as a non-success result. -/
def executeFormTriggerNode (env : Env) (cfg : NodeConfig) (outcome : FormOutcome) :
    NodeExecutionResult :=
  let title := jsTrimStr cfg.general.formTitle
  let description := cfg.general.formDescription
  let fields := cfg.general.formFields
  match validateFormConfig title fields with
  | some err => { success := false, error := some err }
  | none =>
    match waitForFormSubmit env outcome with
    | .error msg => { success := false, error := some msg }
    | .ok (values, atTs) =>
      let valueRows := mapFormValues fields values
      let dict := buildFormDataDictionary valueRows
      { success := true,
        data := some (.obj [
          ("triggered", .bool true), ("submittedAt", .str atTs), ("title", .str title),
          ("description", .str description),
          ("values", .arr (valueRows.map formValueRowToValue)),
          ("fields", .arr (fields.map formFieldToValue)),
          ("data", .obj dict)]) }

/-- Source: triggerNodesExecutor `executeChatTriggerNode` — success with the
message payload, or the `Chat trigger cancelled` error. -/
def executeChatTriggerNode (env : Env) (outcome : ChatOutcome) : NodeExecutionResult :=
  match outcome with
  | .message text atTs =>
    { success := true,
      data := some (.obj [("triggered", .bool true),
        ("message", .obj [("text", .str text), ("at", .str (atTs.getD (toISOString env.now)))]),
        ("triggeredAt", .str (toISOString env.now))]) }
  | .cancelled => { success := false, error := some "Chat trigger cancelled" }

/-- Source: triggerNodesExecutor `executeTriggerCategory` — dispatch by node type. -/
def executeTriggerCategory (env : Env) (cfg : NodeConfig) (ctx : ExecutionContext)
    (formOutcome : FormOutcome) (chatOutcome : ChatOutcome) : NodeExecutionResult :=
  if cfg.nodeType = "Chat" then executeChatTriggerNode env chatOutcome
  else if cfg.nodeType = "Form" then executeFormTriggerNode env cfg formOutcome
  else if cfg.nodeType = "Manual Trigger" then
    { success := true,
      data := some (.obj [("triggered", .bool true),
        ("triggeredAt", .str (toISOString env.now)),
        ("inputContext", .obj ctx.vars)]) }
  else { success := false, error := some ("Unsupported trigger node type: " ++ cfg.nodeType) }

/-! ### HTTP Request (part_004, action section) -/

/-- The action decided by `executeHttpRequestNode` before any network side
effect: an early `{success:false}` result, or the fetch it would perform. -/
inductive HttpAction where
  | earlyFailure (r : NodeExecutionResult)
  | fetch (url : String) (queryParams : List (String × String))
      (headers : Option (List (String × String)))

/-- Parsed URL (simplified WHATWG model: a non-empty alphabetic-initial scheme
followed by a colon and a non-empty remainder; the protocol is lower-cased as
the `URL` class does). -/
structure JsURL where
  protocol : String
  rest : String

/-- Characters allowed in a URL scheme after the initial letter. -/
def schemeChar (c : Char) : Bool :=
  c.isAlphanum || c = '+' || c = '-' || c = '.'

/-- `new URL(s)` (simplified model): `none` models the thrown `TypeError`. -/
def parseURL (s : String) : Option JsURL :=
  let pre := s.data.takeWhile (fun c => c ≠ ':')
  match s.data.drop pre.length with
  | ':' :: rest =>
    (match pre with
     | [] => none
     | c :: _ =>
       if c.isAlpha ∧ pre.all schemeChar ∧ ¬ rest.isEmpty then
         some { protocol := lowerStr (⟨pre⟩ : String) ++ ":", rest := ⟨rest⟩ }
       else none)
  | _ => none

/-- Source: actionNodesExecutor `resolveHeaders` — resolve the headers template
and parse it as JSON; `Object.entries` (own enumerable entries, values
stringified with `null` to the empty string); a parse failure or a `null` parse
result (on which `Object.entries` throws) yields the invalid-headers error. -/
def resolveHeaders (_env : Env) (general : GeneralSettings) (ctx : ExecutionContext) :
    Except String (Option (List (String × String))) :=
  if jsTrimStr general.headers ≠ "" then
    let headersStr := resolveTemplate general.headers ctx
    match jsonParse (if headersStr = "" then "\x7b\x7d" else headersStr) with
    | some (.obj fs) =>
      .ok (some (fs.map (fun kv =>
        (kv.1, match kv.2 with
               | .null => ""
               | .jsUndefined => ""
               | v => jsToString v))))
    | some (.arr xs) =>
      .ok (some ((xs.enum).map (fun p =>
        (toString p.1, match p.2 with
                       | .null => ""
                       | .jsUndefined => ""
                       | v => jsToString v))))
    | some .null => .error "HTTP Request: Headers must be valid JSON."
    | some _ => .ok (some [])
    | none => .error "HTTP Request: Headers must be valid JSON."
  else .ok none

/-- Source: actionNodesExecutor `executeHttpRequestNode` together with
`validateAndBuildUrl` — resolve and validate the URL (non-empty, parseable,
http(s) protocol), resolve the query parameters, resolve the headers; every
configuration error returns `{success:false, error}` before the fetch. -/
def executeHttpRequestNode (env : Env) (cfg : NodeConfig) (ctx : ExecutionContext) :
    HttpAction :=
  let rawUrl := jsTrimStr (resolveTemplate cfg.general.url ctx)
  if rawUrl = "" then
    .earlyFailure { success := false, error := some "HTTP Request: Please provide a URL." }
  else
    match parseURL rawUrl with
    | none =>
      .earlyFailure { success := false,
                      error := some "HTTP Request: Invalid URL. Provide a valid absolute URL starting with http(s)://" }
    | some urlObj =>
      if ¬ (urlObj.protocol = "http:" ∨ urlObj.protocol = "https:") then
        .earlyFailure { success := false,
                        error := some "HTTP Request: Only http(s) URLs are supported." }
      else
        let appended := cfg.general.queryParams.filterMap (fun row =>
          let name := jsTrimStr (resolveTemplate row.key ctx)
          if name = "" then none
          else some (name, resolveTemplate row.value ctx))
        match resolveHeaders env cfg.general ctx with
        | .error msg => .earlyFailure { success := false, error := some msg }
        | .ok hs => .fetch rawUrl appended hs

/-- An HTTP response as observed after `fetch` (status line, headers, decoded body). -/
structure HttpResponse where
  ok : Bool
  status : Int
  statusText : String
  headers : List (String × String)
  contentType : String
  body : Value

/-- Source: actionNodesExecutor `executeHttpFetch`, response-processing part —
build the result payload; a non-2xx status returns `{success:false}` with the
`HTTP <status> <statusText>` error and the payload as diagnostic data. -/
def executeHttpFetch (url : String) (method : String)
    (headers : Option (List (String × String))) (qp : List (String × String))
    (resp : HttpResponse) (elapsedMs : Int) : NodeExecutionResult :=
  let resultPayload : Value := .obj [
    ("url", .str url), ("method", .str method), ("ok", .bool resp.ok),
    ("status", .num (.fin resp.status)), ("statusText", .str resp.statusText),
    ("elapsedMs", .num (.fin elapsedMs)),
    ("request", .obj [
      ("queryParams", .arr (qp.map (fun p => .obj [("key", .str p.1), ("value", .str p.2)]))),
      ("headers", .obj ((headers.getD []).map (fun p => (p.1, Value.str p.2))))]),
    ("response", .obj [
      ("headers", .obj (resp.headers.map (fun p => (p.1, Value.str p.2)))),
      ("contentType", .str resp.contentType)]),
    ("body", resp.body)]
  if !resp.ok then
    { success := false,
      error := some ("HTTP " ++ toString resp.status ++ " " ++ resp.statusText),
      data := some resultPayload }
  else { success := true, data := some resultPayload }

/-! ### Derived notions used in the theorem statements -/

/-- The kind computed by `compareValues` for the pair comparators: upgraded to
`time` when the left operand, or both components of the right-hand pair, look
like bare time strings. -/
def pairCompareKind (env : Env) (l r : Value) : VKind :=
  let rv := parsePairValues r
  if isTimeOnlyString l || (isTimeOnlyString rv.1 && isTimeOnlyString rv.2) then VKind.time
  else inferValueKind env.now l

/-- Milliseconds-since-midnight of a value after coercion to the `time` kind. -/
def todCoerce (env : Env) (v : Value) : JsNum :=
  toTimeOfDayMs env.now (coerceToKind env.now v VKind.time)

/-- The milliseconds-since-midnight comparison the spec mandates for an upgraded
ordering comparator. -/
def todOrderingResult (env : Env) (c : String) (l r : Value) : Bool :=
  if c = "before" then JsNum.jlt (todCoerce env l) (todCoerce env r)
  else if c = "after" then JsNum.jlt (todCoerce env r) (todCoerce env l)
  else if c = "on or before" then JsNum.jle (todCoerce env l) (todCoerce env r)
  else JsNum.jle (todCoerce env r) (todCoerce env l)

/-- The milliseconds-since-midnight containment the spec mandates for an
upgraded range comparator (bounds normalized by min/max). -/
def todBetween (env : Env) (l r : Value) : Bool :=
  let rv := parsePairValues r
  let lt := todCoerce env l
  let r0t := todCoerce env rv.1
  let r1t := todCoerce env rv.2
  JsNum.jle (JsNum.jmin r0t r1t) lt && JsNum.jle lt (JsNum.jmax r0t r1t)

/-- Index of the first `true` in a list of booleans (the first matching rule). -/
def firstTrueIdx : List Bool → Option Nat
  | [] => none
  | true :: _ => some 0
  | false :: rest => (firstTrueIdx rest).map (· + 1)

/-- The Node Execution Result invariant of spec §3: success implies no error,
failure implies a non-empty error message. -/
def resultOk (r : NodeExecutionResult) : Prop :=
  (r.success = true → r.error = none) ∧
  (r.success = false → ∃ m, r.error = some m ∧ m ≠ "")

/-! ### Concrete fixtures for witnesses and counterexamples -/

/-- A concrete environment (fixed clock, trivial oracles) for witnesses and
counterexamples. -/
def env0 : Env where
  now := 1750000000000
  regexTest := fun _ _ => none
  regexValid := fun _ => true
  evalFn := fun _ _ => Except.error "not supported"
  evalPred := fun _ => Except.error "not supported"

/-- An empty execution context. -/
def ctx0 : ExecutionContext where
  results := []
  vars := []

/-- A context binding `x = 2` (the Switch Case scenario of the spec). -/
def ctx5 : ExecutionContext where
  results := []
  vars := [("x", .num (.fin 2))]

/-- The rules of the spec's Switch Case scenario. -/
def rules5 : List SwitchRule :=
  [{ left := "$.x", comparator := "is equal to", right := "1" },
   { left := "$.x", comparator := "is equal to", right := "2" }]

/-- The Switch Case configuration of the spec's scenario. -/
def cfg5 : NodeConfig where
  category := "condition"
  nodeType := "Switch Case"
  general := { rules := some rules5 }

/-- A valid Form trigger configuration. -/
def cfg6 : NodeConfig where
  category := "trigger"
  nodeType := "Form"
  general := { formTitle := "My Form",
               formFields := [ { ftype := "text", label := "Name", options := [] } ] }

/-- An HTTP Request configuration with a valid URL and malformed JSON headers. -/
def cfg7 : NodeConfig where
  category := "action"
  nodeType := "HTTP Request"
  general := { url := "https://example.com/a", headers := "\x7bbad" }

/-- A context binding `items = [1,2,3,4]` (the Filter scenario of the spec). -/
def ctx10 : ExecutionContext where
  results := []
  vars := [("items", .arr [.num (.fin 1), .num (.fin 2), .num (.fin 3), .num (.fin 4)])]

/-- The Filter configuration of the spec's scenario. -/
def cfg10 : NodeConfig where
  category := "condition"
  nodeType := "Filter"
  general := { input := some "$.items",
               conditions := some [ { left := "$.item", comparator := "greater than", right := "2" } ] }

/-- Condition rows A (seed, false), B (OR, true), C (AND, true) for the folding witness. -/
def rowA : Row := { left := "1", comparator := "is equal to", right := "2" }

/-- Row B of the folding witness (joiner OR). -/
def rowB : Row := { left := "1", comparator := "is equal to", right := "1", joiner := some Joiner.OR }

/-- Row C of the folding witness (joiner AND). -/
def rowC : Row := { left := "1", comparator := "is equal to", right := "1", joiner := some Joiner.AND }

/-! ## Theorems -/

/-- Past index 0, the row-folding loop is a left fold over the remaining rows. -/
theorem evaluateRowsGo_foldl (env : Env) (ctx : ExecutionContext) :
    ∀ (rows : List Row) (i : Nat) (cum : Bool) (acc : List Bool),
    (evaluateRowsGo env ctx rows (i + 1) cum acc).1 =
      rows.foldl (fun a row =>
        if row.joiner = some Joiner.OR then a || rowCompare env ctx row
        else a && rowCompare env ctx row) cum
  | [], _, _, _ => rfl
  | row :: rest, i, cum, acc => by
    simp only [evaluateRowsGo, List.foldl, Nat.succ_ne_zero, if_false]
    exact evaluateRowsGo_foldl env ctx rest (i + 1) _ _

/-- Claim C1: condition-row folding is a left-to-right fold: row 0's comparator
result is the seed (its own joiner is ignored), and each subsequent row's result
is combined with the cumulative result using OR when its joiner is OR and AND
otherwise (an unset joiner defaults to AND); in particular for rows
`[A (seed), B (joiner OR), C (joiner AND)]` the cumulative result equals
`(A || B) && C`, not `A || (B && C)`. -/
theorem c1_condition_fold (env : Env) (ctx : ExecutionContext) (r0 : Row) (rest : List Row) :
    ((evaluateRows env ctx (r0 :: rest)).cumulative =
      rest.foldl (fun a row =>
        if row.joiner = some Joiner.OR then a || rowCompare env ctx row
        else a && rowCompare env ctx row) (rowCompare env ctx r0)) ∧
    (∀ A B C : Row, B.joiner = some Joiner.OR → C.joiner = some Joiner.AND →
      (evaluateRows env ctx [A, B, C]).cumulative =
        ((rowCompare env ctx A || rowCompare env ctx B) && rowCompare env ctx C)) := by
  constructor
  · show (evaluateRowsGo env ctx (r0 :: rest) 0 true []).1 = _
    simp only [evaluateRowsGo, if_pos rfl]
    exact evaluateRowsGo_foldl env ctx rest 0 _ _
  · intro A B C hB hC
    show (evaluateRowsGo env ctx [A, B, C] 0 true []).1 = _
    simp only [evaluateRowsGo, hB, hC, if_pos rfl, Nat.succ_ne_zero, if_false, if_true]
    simp

/-- Witness for C1: rows A (seed, evaluating false), B (joiner OR, true),
C (joiner AND, true) fold to `(A || B) && C`. -/
theorem c1_condition_fold_witness :
    rowB.joiner = some Joiner.OR ∧ rowC.joiner = some Joiner.AND ∧
    (evaluateRows env0 ctx0 [rowA, rowB, rowC]).cumulative =
      ((rowCompare env0 ctx0 rowA || rowCompare env0 ctx0 rowB) && rowCompare env0 ctx0 rowC) :=
  ⟨rfl, rfl, (c1_condition_fold env0 ctx0 rowA [rowB, rowC]).2 rowA rowB rowC rfl rfl⟩

/-- Claim C3: for a unary comparator the right operand is never read and never
required — `compareValues` gives the same result for any two right operands, and
row validation accepts a unary row with any (blank or malformed) right operand
as long as its left operand is non-blank. -/
theorem c3_unary_right_irrelevant (env : Env) (ctx : ExecutionContext) (c : String)
    (hc : c ∈ UNARY_COMPARATORS) (l r1 r2 : Value) (leftS rightS : String)
    (hleft : isBlankStr leftS = false) :
    compareValues env l c r1 = compareValues env l c r2 ∧
    validateRows env ctx [{ left := leftS, comparator := c, right := rightS }] = none := by
  have hc' : c = "exists" ∨ c = "does not exist" ∨ c = "is empty" ∨ c = "is not empty" ∨
      c = "is true" ∨ c = "is false" := by
    simpa [UNARY_COMPARATORS] using hc
  constructor
  · rcases hc' with h | h | h | h | h | h <;> subst h <;> rfl
  · rcases hc' with h | h | h | h | h | h <;> subst h <;>
      simp [validateRows, validateRowsGo, validateRow, hleft, UNARY_COMPARATORS,
        NUMERIC_RIGHT_COMPARATORS, PAIR_COMPARATORS, REGEX_COMPARATORS, KEY_PROP_COMPARATORS]

/-- Witness for C3: the `exists` comparator at a malformed right operand. -/
theorem c3_unary_right_irrelevant_witness :
    "exists" ∈ UNARY_COMPARATORS ∧ isBlankStr "x" = false ∧
    (compareValues env0 (.num (.fin 1)) "exists" (.str ",,malformed") =
      compareValues env0 (.num (.fin 1)) "exists" (.obj [("junk", .null)]) ∧
     validateRows env0 ctx0 [{ left := "x", comparator := "exists", right := ",,malformed" }] = none) :=
  ⟨by decide, by decide,
    c3_unary_right_irrelevant env0 ctx0 "exists" (by decide)
      (.num (.fin 1)) (.str ",,malformed") (.obj [("junk", .null)]) "x" ",,malformed" (by decide)⟩

/-- Claim C8: equality comparators are structural — two structurally identical
arrays/objects compare equal under `is equal to` (equality is by canonical
serialization, not reference identity), and `is not equal to` is its negation. -/
theorem c8_structural_equality (env : Env) (v : Value)
    (h : (∃ xs, v = Value.arr xs) ∨ (∃ fs, v = Value.obj fs)) :
    compareValues env v "is equal to" v = true ∧
    (∀ l r : Value,
      compareValues env l "is not equal to" r = !(compareValues env l "is equal to" r)) := by
  constructor
  · rcases h with ⟨xs, rfl⟩ | ⟨fs, rfl⟩ <;>
      simp [compareValues, inferValueKind, coerceToKind, deepEqual, DATE_TIME_COMPARATORS]
  · intro l r
    simp [compareValues, DATE_TIME_COMPARATORS]

/-- Witness for C8: a structurally identical (but separately built) object. -/
theorem c8_structural_equality_witness :
    ((∃ xs, Value.obj [("a", .num (.fin 1)), ("b", .arr [.str "x"])] = Value.arr xs) ∨
     (∃ fs, Value.obj [("a", .num (.fin 1)), ("b", .arr [.str "x"])] = Value.obj fs)) ∧
    compareValues env0 (Value.obj [("a", .num (.fin 1)), ("b", .arr [.str "x"])])
      "is equal to" (Value.obj [("a", .num (.fin 1)), ("b", .arr [.str "x"])]) = true :=
  ⟨Or.inr ⟨_, rfl⟩,
   (c8_structural_equality env0 (Value.obj [("a", .num (.fin 1)), ("b", .arr [.str "x"])])
     (Or.inr ⟨_, rfl⟩)).1⟩

/-- `Math.min` on JavaScript numbers is commutative. -/
theorem jsnum_jmin_comm (x y : JsNum) : JsNum.jmin x y = JsNum.jmin y x := by
  rcases x with _ | p | a <;> rcases y with _ | q | b
  · rfl
  · rfl
  · rfl
  · rfl
  · cases p <;> cases q <;> rfl
  · cases p <;> rfl
  · rfl
  · cases q <;> rfl
  · rcases lt_trichotomy a b with h | h | h
    · simp [JsNum.jmin, JsNum.jle, JsNum.jlt, JsNum.isNaN, h, lt_asymm h]
    · subst h; rfl
    · simp [JsNum.jmin, JsNum.jle, JsNum.jlt, JsNum.isNaN, h, lt_asymm h]

/-- `Math.max` on JavaScript numbers is commutative. -/
theorem jsnum_jmax_comm (x y : JsNum) : JsNum.jmax x y = JsNum.jmax y x := by
  rcases x with _ | p | a <;> rcases y with _ | q | b
  · rfl
  · rfl
  · rfl
  · rfl
  · cases p <;> cases q <;> rfl
  · cases p <;> rfl
  · rfl
  · cases q <;> rfl
  · rcases lt_trichotomy a b with h | h | h
    · simp [JsNum.jmax, JsNum.jle, JsNum.jlt, JsNum.isNaN, h, lt_asymm h]
    · subst h; rfl
    · simp [JsNum.jmax, JsNum.jle, JsNum.jlt, JsNum.isNaN, h, lt_asymm h]

/-- Time-of-day parse failure coincides with timestamp parse failure or clipping;
in particular a non-NaN timestamp whose truncation clips still reaches the
normalized timestamp branch. Here: swapping the two bounds of `betweenCheck`
does not change its result when all three operands have parseable timestamps. -/
theorem betweenCheck_swap (now : Int) (k : VKind) (l a b : Value)
    (h1 : (toTimestamp now l).isNaN = false)
    (h2 : (toTimestamp now a).isNaN = false)
    (h3 : (toTimestamp now b).isNaN = false) :
    betweenCheck now k l a b = betweenCheck now k l b a := by
  unfold betweenCheck
  by_cases hk : k = VKind.time
  · subst hk
    simp only [if_pos rfl]
    rcases hl : (toTimeOfDayMs now l).isNaN <;>
      rcases ha : (toTimeOfDayMs now a).isNaN <;>
      rcases hb : (toTimeOfDayMs now b).isNaN <;>
        simp [hl, ha, hb, h1, h2, h3, jsnum_jmin_comm, jsnum_jmax_comm]
  · simp [hk, h1, h2, h3, jsnum_jmin_comm, jsnum_jmax_comm]

/-- `compareValues` at `is between` unfolds to `betweenCheck` at the pair kind. -/
theorem compareValues_is_between (env : Env) (l r : Value) :
    compareValues env l "is between" r =
      betweenCheck env.now (pairCompareKind env l r)
        (coerceToKind env.now l (pairCompareKind env l r))
        (coerceToKind env.now (parsePairValues r).1 (pairCompareKind env l r))
        (coerceToKind env.now (parsePairValues r).2 (pairCompareKind env l r)) := by
  simp [compareValues, pairCompareKind, DATE_TIME_COMPARATORS]

/-- `compareValues` at `is not between` is the negation of the same check. -/
theorem compareValues_is_not_between (env : Env) (l r : Value) :
    compareValues env l "is not between" r =
      !(betweenCheck env.now (pairCompareKind env l r)
        (coerceToKind env.now l (pairCompareKind env l r))
        (coerceToKind env.now (parsePairValues r).1 (pairCompareKind env l r))
        (coerceToKind env.now (parsePairValues r).2 (pairCompareKind env l r))) := by
  simp [compareValues, pairCompareKind, DATE_TIME_COMPARATORS]

/-- Counterexample to C2 as stated: with left operand `true` and bounds
`[true, false]` versus `[false, true]` the two evaluations differ (the raw
numeric fallback compares against the bounds in their given order). -/
theorem c2_between_swap_counterexample :
    compareValues env0 (.bool true) "is between" (.arr [.bool true, .bool false]) = false ∧
    compareValues env0 (.bool true) "is between" (.arr [.bool false, .bool true]) = true :=
  ⟨by decide, by decide⟩

/-- Claim C2 (amended): `is between` and `is not between` are invariant under
swapping the two bound values whenever the left operand and both bounds (after
kind coercion) have parseable timestamps — the time-of-day and timestamp paths
normalize the bounds via min/max; only the raw numeric fallback (reached when
some timestamp parse fails, e.g. boolean operands) is order-sensitive. -/
theorem c2_between_swap_amended (env : Env) (c : String) (l a b r r' : Value)
    (hc : c = "is between" ∨ c = "is not between")
    (hr : parsePairValues r = (a, b)) (hr' : parsePairValues r' = (b, a))
    (h1 : (toTimestamp env.now (coerceToKind env.now l (pairCompareKind env l r))).isNaN = false)
    (h2 : (toTimestamp env.now (coerceToKind env.now a (pairCompareKind env l r))).isNaN = false)
    (h3 : (toTimestamp env.now (coerceToKind env.now b (pairCompareKind env l r))).isNaN = false) :
    compareValues env l c r = compareValues env l c r' := by
  have hkind : pairCompareKind env l r' = pairCompareKind env l r := by
    simp [pairCompareKind, hr, hr', Bool.and_comm]
  rcases hc with rfl | rfl
  · rw [compareValues_is_between, compareValues_is_between, hkind, hr, hr']
    exact betweenCheck_swap env.now _ _ _ _ h1 h2 h3
  · rw [compareValues_is_not_between, compareValues_is_not_between, hkind, hr, hr']
    rw [betweenCheck_swap env.now _ _ _ _ h1 h2 h3]

/-- Witness for the amended C2: numeric left operand 5 with bounds `[10, 2]`
versus `[2, 10]` (both orders evaluate to true). -/
theorem c2_between_swap_amended_witness :
    parsePairValues (.arr [.num (.fin 10), .num (.fin 2)]) = (.num (.fin 10), .num (.fin 2)) ∧
    compareValues env0 (.num (.fin 5)) "is between" (.arr [.num (.fin 10), .num (.fin 2)]) =
      compareValues env0 (.num (.fin 5)) "is between" (.arr [.num (.fin 2), .num (.fin 10)]) ∧
    compareValues env0 (.num (.fin 5)) "is between" (.arr [.num (.fin 10), .num (.fin 2)]) = true :=
  ⟨rfl,
   c2_between_swap_amended env0 "is between" (.num (.fin 5)) (.num (.fin 10)) (.num (.fin 2))
     (.arr [.num (.fin 10), .num (.fin 2)]) (.arr [.num (.fin 2), .num (.fin 10)])
     (Or.inl rfl) rfl rfl (by decide) (by decide) (by decide),
   by decide⟩

/-- Counterexample to C4 as stated: for `is between` with only one side of the
right-hand pair a bare time string (`["06:00", "2030-01-01"]`) and a non-time
left operand, the kind is not upgraded — the comparison uses full timestamps
(yielding false), while the claimed milliseconds-since-midnight comparison
yields true. -/
theorem c4_time_upgrade_counterexample :
    isTimeOnlyString (Value.str "06:00") = true ∧
    isTimeOnlyString (Value.str "2024-01-10T05:00:00Z") = false ∧
    compareValues env0 (.str "2024-01-10T05:00:00Z") "is between"
      (.arr [.str "06:00", .str "2030-01-01"]) = false ∧
    todBetween env0 (.str "2024-01-10T05:00:00Z") (.arr [.str "06:00", .str "2030-01-01"]) = true :=
  ⟨by decide, by decide, by decide, by decide⟩

/-- Claim C4 (amended): for the ordering comparators the kind is upgraded to
time-of-day when either operand is a bare time string, and the comparison is
then performed on milliseconds-since-midnight; for the pair comparators the
upgrade requires the left operand to be a bare time string or BOTH sides of the
right-hand pair to be bare time strings, and (when the three time-of-day values
parse) the comparison is the min/max-normalized millisecond containment. -/
theorem c4_time_of_day_upgrade (env : Env) (l r : Value) :
    (∀ c, (c = "before" ∨ c = "after" ∨ c = "on or before" ∨ c = "on or after") →
      (isTimeOnlyString l || isTimeOnlyString r) = true →
      compareValues env l c r = todOrderingResult env c l r) ∧
    ((isTimeOnlyString l || (isTimeOnlyString (parsePairValues r).1 &&
        isTimeOnlyString (parsePairValues r).2)) = true →
      (todCoerce env l).isNaN = false →
      (todCoerce env (parsePairValues r).1).isNaN = false →
      (todCoerce env (parsePairValues r).2).isNaN = false →
      compareValues env l "is between" r = todBetween env l r ∧
      compareValues env l "is not between" r = !(todBetween env l r)) := by
  constructor
  · intro c hc hup
    rcases hc with rfl | rfl | rfl | rfl <;>
      simp [compareValues, DATE_TIME_COMPARATORS, hup, todOrderingResult, todCoerce]
  · intro hup h1 h2 h3
    have hk : pairCompareKind env l r = VKind.time := by
      simp [pairCompareKind, hup]
    constructor
    · rw [compareValues_is_between, hk]
      unfold betweenCheck
      simp only [if_pos rfl]
      simp [todCoerce] at h1 h2 h3
      simp [h1, h2, h3, todBetween, todCoerce]
    · rw [compareValues_is_not_between, hk]
      unfold betweenCheck
      simp only [if_pos rfl]
      simp [todCoerce] at h1 h2 h3
      simp [h1, h2, h3, todBetween, todCoerce]

/-- Witness for the amended C4: `09:00` before `17:00` compares by time of day,
and `10:00` is between `["09:00", "17:00"]`. -/
theorem c4_time_of_day_upgrade_witness :
    (isTimeOnlyString (Value.str "09:00") || isTimeOnlyString (Value.str "17:00")) = true ∧
    compareValues env0 (.str "09:00") "before" (.str "17:00") =
      todOrderingResult env0 "before" (.str "09:00") (.str "17:00") ∧
    compareValues env0 (.str "09:00") "before" (.str "17:00") = true ∧
    compareValues env0 (.str "10:00") "is between" (.arr [.str "09:00", .str "17:00"]) =
      todBetween env0 (.str "10:00") (.arr [.str "09:00", .str "17:00"]) ∧
    compareValues env0 (.str "10:00") "is between" (.arr [.str "09:00", .str "17:00"]) = true :=
  ⟨by decide,
   (c4_time_of_day_upgrade env0 (.str "09:00") (.str "17:00")).1 "before"
     (Or.inl rfl) (by decide),
   by decide,
   ((c4_time_of_day_upgrade env0 (.str "10:00")
       (.arr [.str "09:00", .str "17:00"])).2 (by decide) (by decide) (by decide) (by decide)).1,
   by decide⟩

/-- Once a match is recorded (index ≠ −1), the Switch scan keeps it. -/
theorem switchScanGo_found (env : Env) (ctx : ExecutionContext) :
    ∀ (rules : List SwitchRule) (i : Nat) (m : Int) (acc : List Bool), m ≠ -1 →
    (switchScanGo env ctx rules i m acc).1 = m
  | [], _, _, _, _ => rfl
  | r :: rest, i, m, acc, hm => by
    unfold switchScanGo
    simp only [hm, and_false, if_false]
    exact switchScanGo_found env ctx rest (i + 1) m _ hm

/-- While no match is recorded, the Switch scan returns the index of the first
rule that evaluates to true (offset by the running index), or −1. -/
theorem switchScanGo_none (env : Env) (ctx : ExecutionContext) :
    ∀ (rules : List SwitchRule) (i : Nat) (acc : List Bool),
    (switchScanGo env ctx rules i (-1) acc).1 =
      (match firstTrueIdx (rules.map (switchRuleEval env ctx)) with
       | some j => ((i + j : Nat) : Int)
       | none => -1)
  | [], _, _ => rfl
  | r :: rest, i, acc => by
    unfold switchScanGo
    by_cases hok : switchRuleEval env ctx r = true
    · have hne : ((i : Int)) ≠ -1 := by omega
      have hfound := fun acc2 => switchScanGo_found env ctx rest (i + 1) (i : Int) acc2 hne
      simp [hok, hfound, firstTrueIdx]
    · have hokf : switchRuleEval env ctx r = false := by
        cases hv : switchRuleEval env ctx r
        · rfl
        · exact absurd hv hok
      have hrec := switchScanGo_none env ctx rest (i + 1) (false :: acc)
      simp only [hokf, Bool.false_eq_true, false_and, if_false]
      rw [hrec]
      simp only [List.map_cons, hokf, firstTrueIdx]
      cases hfind : firstTrueIdx (rest.map (switchRuleEval env ctx))
      · simp [hfind]
      · simp [hfind]
        ring

/-- The Switch scan collects every rule's evaluation, in order. -/
theorem switchScanGo_results (env : Env) (ctx : ExecutionContext) :
    ∀ (rules : List SwitchRule) (i : Nat) (m : Int) (acc : List Bool),
    (switchScanGo env ctx rules i m acc).2 =
      acc.reverse ++ rules.map (switchRuleEval env ctx)
  | [], _, _, acc => by simp [switchScanGo]
  | r :: rest, i, m, acc => by
    unfold switchScanGo
    rw [switchScanGo_results env ctx rest (i + 1) _ _]
    simp

/-- Claim C5: for a non-empty rule list that passes validation, the Switch Case
result's `matchedCaseIndex` is the index of the first rule evaluating true and
`matchedPortId` is `right-case-` followed by that index plus one; with no match
the enabled default port yields `right-case-default` with `defaultTaken`, and a
disabled default yields null port and null index. -/
theorem c5_switch_first_match (env : Env) (ctx : ExecutionContext) (cfg : NodeConfig)
    (rules : List SwitchRule) (hrules : cfg.general.rules = some rules) (hne : rules ≠ [])
    (hval : validateRows env ctx (rules.map (fun r =>
      { left := r.left, comparator := r.comparator, right := r.right,
        joiner := some Joiner.OR })) = none) :
    executeSwitchNode env cfg ctx =
      (match firstTrueIdx (rules.map (switchRuleEval env ctx)) with
       | some j =>
         { success := true,
           data := some (.obj [
             ("matchedCaseIndex", .num (.fin ((j : Int) : ℚ))),
             ("matchedPortId", .str ("right-case-" ++ toString ((j : Int) + 1))),
             ("defaultTaken", .bool false),
             ("rowResults", .arr ((rules.map (switchRuleEval env ctx)).map Value.bool))]) }
       | none =>
         { success := true,
           data := some (.obj [
             ("matchedCaseIndex", .null),
             ("matchedPortId",
               if cfg.general.enableDefaultPort then .str "right-case-default" else .null),
             ("defaultTaken", .bool cfg.general.enableDefaultPort),
             ("rowResults", .arr ((rules.map (switchRuleEval env ctx)).map Value.bool))]) }) := by
  unfold executeSwitchNode
  rw [hrules]
  have hemp : rules.isEmpty = false := by
    cases rules with
    | nil => exact absurd rfl hne
    | cons a l => rfl
  have hscan1 := switchScanGo_none env ctx rules 0 []
  have hscan2 := switchScanGo_results env ctx rules 0 (-1) []
  cases hfind : firstTrueIdx (rules.map (switchRuleEval env ctx)) with
  | some j =>
    rw [hfind] at hscan1
    simp only [Nat.zero_add] at hscan1
    have hge : ((j : Nat) : Int) ≥ 0 := Int.natCast_nonneg j
    have hlt : (decide (((j : Nat) : Int) < 0)) = false :=
      decide_eq_false (Int.not_lt.2 hge)
    simp only [Option.getD_some, hemp, Bool.false_eq_true, if_false, hval, hscan1, hscan2,
      if_pos hge, hlt, Bool.false_and, List.reverse_nil, List.nil_append]
  | none =>
    rw [hfind] at hscan1
    simp only [] at hscan1
    have hge : ¬ ((-1 : Int) ≥ 0) := by omega
    have hlt : (decide ((-1 : Int) < 0)) = true := by simp
    simp only [Option.getD_some, hemp, Bool.false_eq_true, if_false, hval, hscan1, hscan2,
      if_neg hge, hlt, Bool.true_and, List.reverse_nil, List.nil_append]

/-- Witness for C5: the spec's scenario — rules `x = 1`, `x = 2`, context `x = 2`,
default disabled — matches case index 1 with port `right-case-2`. -/
theorem c5_switch_first_match_witness :
    cfg5.general.rules = some rules5 ∧ rules5 ≠ [] ∧
    validateRows env0 ctx5 (rules5.map (fun r =>
      { left := r.left, comparator := r.comparator, right := r.right,
        joiner := some Joiner.OR })) = none ∧
    executeSwitchNode env0 cfg5 ctx5 =
      { success := true,
        data := some (.obj [
          ("matchedCaseIndex", .num (.fin 1)),
          ("matchedPortId", .str "right-case-2"),
          ("defaultTaken", .bool false),
          ("rowResults", .arr [.bool false, .bool true])]) } := by
  refine ⟨rfl, by simp [rules5], rfl, ?_⟩
  have h := c5_switch_first_match env0 ctx5 cfg5 rules5 rfl (by simp [rules5]) rfl
  exact h

/-- Claim C6: for a valid form configuration, a cancellation that resolves the
pending trigger-wait first makes the Form trigger return a non-success result
with the `Form trigger cancelled` error — and the wait itself resolves (with
that rejection) rather than hanging. -/
theorem c6_form_trigger_cancelled (env : Env) (cfg : NodeConfig)
    (hvalid : validateFormConfig (jsTrimStr cfg.general.formTitle) cfg.general.formFields = none) :
    waitForFormSubmit env FormOutcome.cancelled = .error "Form trigger cancelled" ∧
    executeFormTriggerNode env cfg FormOutcome.cancelled =
      { success := false, data := none, error := some "Form trigger cancelled" } := by
  refine ⟨rfl, ?_⟩
  unfold executeFormTriggerNode
  simp only [hvalid]
  rfl

/-- Witness for C6: a concrete valid form configuration, cancelled. -/
theorem c6_form_trigger_cancelled_witness :
    validateFormConfig (jsTrimStr cfg6.general.formTitle) cfg6.general.formFields = none ∧
    executeFormTriggerNode env0 cfg6 FormOutcome.cancelled =
      { success := false, data := none, error := some "Form trigger cancelled" } :=
  ⟨rfl, (c6_form_trigger_cancelled env0 cfg6 rfl).2⟩

/-- Claim C7: HTTP Request configuration errors — empty resolved URL, a URL that
does not parse, a non-http(s) protocol, or headers that are not valid JSON —
produce `{success:false, error}` before the fetch (the returned action is an
early failure, not a fetch), and the executor is a total function (never throws). -/
theorem c7_http_config_errors (env : Env) (cfg : NodeConfig) (ctx : ExecutionContext)
    (h : jsTrimStr (resolveTemplate cfg.general.url ctx) = "" ∨
         parseURL (jsTrimStr (resolveTemplate cfg.general.url ctx)) = none ∨
         (∃ u, parseURL (jsTrimStr (resolveTemplate cfg.general.url ctx)) = some u ∧
            u.protocol ≠ "http:" ∧ u.protocol ≠ "https:") ∨
         (jsTrimStr cfg.general.headers ≠ "" ∧
           jsonParse (if resolveTemplate cfg.general.headers ctx = "" then "\x7b\x7d"
                      else resolveTemplate cfg.general.headers ctx) = none)) :
    ∃ msg, msg ≠ "" ∧
      executeHttpRequestNode env cfg ctx =
        .earlyFailure { success := false, data := none, error := some msg } := by
  unfold executeHttpRequestNode
  rcases h with h | h | ⟨u, hu, h1, h2⟩ | ⟨hh, hj⟩
  · exact ⟨"HTTP Request: Please provide a URL.", by decide, by simp [h]⟩
  · by_cases hraw : jsTrimStr (resolveTemplate cfg.general.url ctx) = ""
    · exact ⟨"HTTP Request: Please provide a URL.", by decide, by simp [hraw]⟩
    · exact ⟨"HTTP Request: Invalid URL. Provide a valid absolute URL starting with http(s)://",
        by decide, by simp [hraw, h]⟩
  · have hraw : jsTrimStr (resolveTemplate cfg.general.url ctx) ≠ "" := by
      intro he
      rw [he] at hu
      simp [parseURL] at hu
    exact ⟨"HTTP Request: Only http(s) URLs are supported.", by decide,
      by simp [hraw, hu, h1, h2]⟩
  · by_cases hraw : jsTrimStr (resolveTemplate cfg.general.url ctx) = ""
    · exact ⟨"HTTP Request: Please provide a URL.", by decide, by simp [hraw]⟩
    · cases hu : parseURL (jsTrimStr (resolveTemplate cfg.general.url ctx)) with
      | none =>
        exact ⟨"HTTP Request: Invalid URL. Provide a valid absolute URL starting with http(s)://",
          by decide, by simp [hraw, hu]⟩
      | some u =>
        by_cases hp : u.protocol = "http:" ∨ u.protocol = "https:"
        · have hres : resolveHeaders env cfg.general ctx =
              .error "HTTP Request: Headers must be valid JSON." := by
            unfold resolveHeaders
            rw [if_pos hh]
            simp only [hj]
          refine ⟨"HTTP Request: Headers must be valid JSON.", by decide, ?_⟩
          simp [hraw, hu, hp, hres]
        · push_neg at hp
          exact ⟨"HTTP Request: Only http(s) URLs are supported.", by decide,
            by simp [hraw, hu, hp.1, hp.2]⟩

/-- Witness for C7: a valid URL with malformed JSON headers fails early. -/
theorem c7_http_config_errors_witness :
    (jsTrimStr cfg7.general.headers ≠ "" ∧
      jsonParse (if resolveTemplate cfg7.general.headers ctx0 = "" then "\x7b\x7d"
                 else resolveTemplate cfg7.general.headers ctx0) = none) ∧
    (∃ msg, msg ≠ "" ∧
      executeHttpRequestNode env0 cfg7 ctx0 =
        .earlyFailure { success := false, data := none, error := some msg }) :=
  ⟨⟨by decide, rfl⟩,
   c7_http_config_errors env0 cfg7 ctx0 (Or.inr (Or.inr (Or.inr ⟨by decide, rfl⟩)))⟩

/-- Claim C10: Filter-node execution does not mutate the caller's context — the
returned context is exactly the argument (so `variables` gains no `item` key and
`results` is unchanged); each item is evaluated against a copied context binding
the item under the reserved `item` variable; and the filtered output is a
subsequence of the input array in the original order. -/
theorem c10_filter_frame (env : Env) (cfg : NodeConfig) (ctx : ExecutionContext)
    (inputArr : List Value) (r0 : Row) (rs : List Row)
    (hne : ¬ jsTrimStr (cfg.general.input.getD "") = "")
    (hres : resolveValue (jsTrimStr (cfg.general.input.getD "")) ctx = .arr inputArr)
    (hrows : cfg.general.conditions = some (r0 :: rs))
    (hval : validateRows env ctx (r0 :: rs) = none) :
    (executeFilterNode env cfg ctx).2 = ctx ∧
    (executeFilterNode env cfg ctx).1 =
      { success := true,
        data := some (.obj [
          ("filtered", .arr (inputArr.filter (fun item =>
            (evaluateRows env { ctx with vars := ("item", item) :: ctx.vars }
              (r0 :: rs)).cumulative))),
          ("filteredCount", .num (.fin ((inputArr.filter (fun item =>
            (evaluateRows env { ctx with vars := ("item", item) :: ctx.vars }
              (r0 :: rs)).cumulative)).length)))]) } ∧
    List.Sublist
      (inputArr.filter (fun item =>
        (evaluateRows env { ctx with vars := ("item", item) :: ctx.vars }
          (r0 :: rs)).cumulative))
      inputArr := by
  refine ⟨?_, ?_, List.filter_sublist _⟩ <;>
  · unfold executeFilterNode
    simp only [hrows, hres, hval, if_neg hne]

/-- Witness for C10: the spec's Filter scenario — items `[1,2,3,4]`, row
`$.item greater than 2` — leaves the context unchanged. -/
theorem c10_filter_frame_witness :
    (¬ jsTrimStr (cfg10.general.input.getD "") = "") ∧
    resolveValue (jsTrimStr (cfg10.general.input.getD "")) ctx10 =
      .arr [.num (.fin 1), .num (.fin 2), .num (.fin 3), .num (.fin 4)] ∧
    (executeFilterNode env0 cfg10 ctx10).2 = ctx10 ∧
    (executeFilterNode env0 cfg10 ctx10).1.success = true :=
  ⟨by decide, rfl,
   (c10_filter_frame env0 cfg10 ctx10 [.num (.fin 1), .num (.fin 2), .num (.fin 3), .num (.fin 4)]
     { left := "$.item", comparator := "greater than", right := "2" } []
     (by decide) rfl rfl rfl).1,
   by decide⟩

/-- Appending to a non-empty string stays non-empty. -/
theorem string_append_ne_empty (p x : String) (hp : p ≠ "") : p ++ x ≠ "" := by
  obtain ⟨a⟩ := p
  obtain ⟨b⟩ := x
  intro h
  apply hp
  have hd : a ++ b = ([] : List Char) := congrArg String.data h
  rcases List.append_eq_nil.mp hd with ⟨ha, _⟩
  subst ha
  rfl

/-- A failed result with a non-empty message satisfies the invariant. -/
theorem resultOk_of_fail {e : NodeExecutionResult} (hf : e.success = false)
    (hm : ∃ m, e.error = some m ∧ m ≠ "") : resultOk e := by
  constructor
  · intro hs
    rw [hf] at hs
    exact Bool.noConfusion hs
  · intro _
    exact hm

/-- A successful result without an error satisfies the invariant. -/
theorem resultOk_of_success {e : NodeExecutionResult} (hs : e.success = true)
    (he : e.error = none) : resultOk e := by
  constructor
  · intro _
    exact he
  · intro hf
    rw [hs] at hf
    exact Bool.noConfusion hf

/-- Every error produced by the single-row validator is a failure with a
non-empty message. -/
theorem validateRow_err (env : Env) (ctx : ExecutionContext) (row : Row) (n : Nat)
    (e : NodeExecutionResult) (he : validateRow env ctx row n = some e) :
    e.success = false ∧ ∃ m, e.error = some m ∧ m ≠ "" := by
  unfold validateRow at he
  repeat'
    first
      | split at he
      | (dsimp only [] at he; split at he)
  all_goals first
    | exact Option.noConfusion he
    | (injection he with h; subst h;
       exact ⟨rfl, _, rfl, by (repeat' apply string_append_ne_empty); decide⟩)

/-- Every error produced by the row-validation loop is a failure with a
non-empty message. -/
theorem validateRowsGo_err (env : Env) (ctx : ExecutionContext) :
    ∀ (rows : List Row) (i : Nat) (e : NodeExecutionResult),
    validateRowsGo env ctx rows i = some e →
    e.success = false ∧ ∃ m, e.error = some m ∧ m ≠ ""
  | [], _, _, he => Option.noConfusion he
  | row :: rest, i, e, he => by
    unfold validateRowsGo at he
    cases hv : validateRow env ctx row (i + 1) with
    | some e2 =>
      rw [hv] at he
      injection he with h
      subst h
      exact validateRow_err env ctx row (i + 1) e2 hv
    | none =>
      rw [hv] at he
      exact validateRowsGo_err env ctx rest (i + 1) e he

/-- Every immediate result of `getIfRows` satisfies the invariant. -/
theorem getIfRows_result_ok (env : Env) (cfg : NodeConfig) (ctx : ExecutionContext)
    (r : NodeExecutionResult) (h : getIfRows env cfg ctx = .result r) : resultOk r := by
  unfold getIfRows at h
  repeat'
    first
      | split at h
      | (dsimp only [] at h; split at h)
  all_goals first
    | exact RowsOrResult.noConfusion h
    | (injection h with h2; subst h2; exact resultOk_of_success rfl rfl)
    | (injection h with h2; subst h2;
       exact resultOk_of_fail rfl ⟨_, rfl, by (repeat' apply string_append_ne_empty); decide⟩)

/-- The If Condition executor satisfies the invariant. -/
theorem executeIfConditionNode_ok (env : Env) (cfg : NodeConfig) (ctx : ExecutionContext) :
    resultOk (executeIfConditionNode env cfg ctx) := by
  unfold executeIfConditionNode
  cases hg : getIfRows env cfg ctx with
  | result r => exact getIfRows_result_ok env cfg ctx r hg
  | rows rows =>
    dsimp only []
    cases hv : validateRows env ctx rows with
    | some e =>
      have h := validateRowsGo_err env ctx rows 0 e hv
      exact resultOk_of_fail h.1 h.2
    | none => exact resultOk_of_success rfl rfl

/-- The Switch Case executor satisfies the invariant. -/
theorem executeSwitchNode_ok (env : Env) (cfg : NodeConfig) (ctx : ExecutionContext) :
    resultOk (executeSwitchNode env cfg ctx) := by
  unfold executeSwitchNode
  cases hemp : (cfg.general.rules.getD []).isEmpty with
  | true =>
    simp only [hemp, if_true]
    exact resultOk_of_fail rfl ⟨_, rfl, by decide⟩
  | false =>
    simp only [hemp, Bool.false_eq_true, if_false]
    cases hv : validateRows env ctx ((cfg.general.rules.getD []).map (fun r =>
        { left := r.left, comparator := r.comparator, right := r.right,
          joiner := some Joiner.OR })) with
    | some e =>
      have h := validateRowsGo_err env ctx _ 0 e hv
      exact resultOk_of_fail h.1 h.2
    | none => exact resultOk_of_success rfl rfl

/-- The Filter executor satisfies the invariant. -/
theorem executeFilterNode_ok (env : Env) (cfg : NodeConfig) (ctx : ExecutionContext) :
    resultOk (executeFilterNode env cfg ctx).1 := by
  unfold executeFilterNode
  by_cases hin : jsTrimStr (cfg.general.input.getD "") = ""
  · simp only [hin, if_pos rfl]
    exact resultOk_of_fail rfl ⟨_, rfl, by decide⟩
  · simp only [if_neg hin]
    cases hres : resolveValue (jsTrimStr (cfg.general.input.getD "")) ctx with
    | arr inputArr =>
      dsimp only []
      cases hc : cfg.general.conditions with
      | some l =>
        cases l with
        | cons r0 rs =>
          dsimp only []
          cases hv : validateRows env ctx (r0 :: rs) with
          | some e =>
            have h := validateRowsGo_err env ctx _ 0 e hv
            exact resultOk_of_fail h.1 h.2
          | none => exact resultOk_of_success rfl rfl
        | nil =>
          by_cases hraw : cfg.general.predicate.getD (cfg.general.filterCondition.getD "") = ""
          · simp only [hraw, if_pos rfl]
            exact resultOk_of_fail rfl ⟨_, rfl, by decide⟩
          · simp only [if_neg hraw]
            cases hp : env.evalPred (jsTrimStr (resolveTemplate
                (cfg.general.predicate.getD (cfg.general.filterCondition.getD "")) ctx)) with
            | error e =>
              exact resultOk_of_fail rfl
                ⟨_, rfl, by (repeat' apply string_append_ne_empty); decide⟩
            | ok f => exact resultOk_of_success rfl rfl
      | none =>
        by_cases hraw : cfg.general.predicate.getD (cfg.general.filterCondition.getD "") = ""
        · simp only [hraw, if_pos rfl]
          exact resultOk_of_fail rfl ⟨_, rfl, by decide⟩
        · simp only [if_neg hraw]
          cases hp : env.evalPred (jsTrimStr (resolveTemplate
              (cfg.general.predicate.getD (cfg.general.filterCondition.getD "")) ctx)) with
          | error e =>
            exact resultOk_of_fail rfl
              ⟨_, rfl, by (repeat' apply string_append_ne_empty); decide⟩
          | ok f => exact resultOk_of_success rfl rfl
    | jsUndefined => exact resultOk_of_fail rfl ⟨_, rfl, by (repeat' apply string_append_ne_empty); decide⟩
    | null => exact resultOk_of_fail rfl ⟨_, rfl, by (repeat' apply string_append_ne_empty); decide⟩
    | bool b => exact resultOk_of_fail rfl ⟨_, rfl, by (repeat' apply string_append_ne_empty); decide⟩
    | num n => exact resultOk_of_fail rfl ⟨_, rfl, by (repeat' apply string_append_ne_empty); decide⟩
    | str s => exact resultOk_of_fail rfl ⟨_, rfl, by (repeat' apply string_append_ne_empty); decide⟩
    | date t => exact resultOk_of_fail rfl ⟨_, rfl, by (repeat' apply string_append_ne_empty); decide⟩
    | obj fs => exact resultOk_of_fail rfl ⟨_, rfl, by (repeat' apply string_append_ne_empty); decide⟩

/-- The Loop executor satisfies the invariant. -/
theorem executeLoopNode_ok (env : Env) (nodeId : String) (cfg : NodeConfig)
    (ctx : ExecutionContext) : resultOk (executeLoopNode env nodeId cfg ctx).1 := by
  unfold executeLoopNode
  by_cases hin : jsTrimStr (cfg.general.input.getD "") = ""
  · simp only [hin, if_pos rfl]
    exact resultOk_of_fail rfl ⟨_, rfl, by decide⟩
  · simp only [if_neg hin]
    cases hres : resolveValue (jsTrimStr (cfg.general.input.getD "")) ctx with
    | arr items => exact resultOk_of_success rfl rfl
    | jsUndefined => exact resultOk_of_fail rfl ⟨_, rfl, by (repeat' apply string_append_ne_empty); decide⟩
    | null => exact resultOk_of_fail rfl ⟨_, rfl, by (repeat' apply string_append_ne_empty); decide⟩
    | bool b => exact resultOk_of_fail rfl ⟨_, rfl, by (repeat' apply string_append_ne_empty); decide⟩
    | num n => exact resultOk_of_fail rfl ⟨_, rfl, by (repeat' apply string_append_ne_empty); decide⟩
    | str s => exact resultOk_of_fail rfl ⟨_, rfl, by (repeat' apply string_append_ne_empty); decide⟩
    | date t => exact resultOk_of_fail rfl ⟨_, rfl, by (repeat' apply string_append_ne_empty); decide⟩
    | obj fs => exact resultOk_of_fail rfl ⟨_, rfl, by (repeat' apply string_append_ne_empty); decide⟩

/-- The Form trigger executor satisfies the invariant. -/
theorem executeFormTriggerNode_ok (env : Env) (cfg : NodeConfig) (fo : FormOutcome) :
    resultOk (executeFormTriggerNode env cfg fo) := by
  unfold executeFormTriggerNode
  dsimp only []
  cases hv : validateFormConfig (jsTrimStr cfg.general.formTitle) cfg.general.formFields with
  | some err =>
    have : err = "Form trigger misconfigured. Ensure title and valid fields (labels, options for dropdowns) are set." := by
      unfold validateFormConfig at hv
      split at hv
      · injection hv with h
        exact h.symm
      · exact Option.noConfusion hv
    subst this
    exact resultOk_of_fail rfl ⟨_, rfl, by decide⟩
  | none =>
    cases fo with
    | submitted values atTs => exact resultOk_of_success rfl rfl
    | cancelled => exact resultOk_of_fail rfl ⟨_, rfl, by decide⟩

/-- The Chat trigger executor satisfies the invariant. -/
theorem executeChatTriggerNode_ok (env : Env) (co : ChatOutcome) :
    resultOk (executeChatTriggerNode env co) := by
  cases co with
  | message text atTs => exact resultOk_of_success rfl rfl
  | cancelled => exact resultOk_of_fail rfl ⟨_, rfl, by decide⟩

/-- The HTTP response processing satisfies the invariant (on failure the payload
may stay as diagnostic data, but the error is a non-empty `HTTP …` message). -/
theorem executeHttpFetch_ok (url method : String)
    (headers : Option (List (String × String))) (qp : List (String × String))
    (resp : HttpResponse) (elapsedMs : Int) :
    resultOk (executeHttpFetch url method headers qp resp elapsedMs) := by
  unfold executeHttpFetch
  cases hok : resp.ok with
  | true =>
    simp only [hok, Bool.not_true, Bool.false_eq_true, if_false]
    exact resultOk_of_success rfl rfl
  | false =>
    simp only [hok, Bool.not_false, if_true]
    exact resultOk_of_fail rfl ⟨_, rfl, by (repeat' apply string_append_ne_empty); decide⟩

/-- Claim C9: every result returned by the embedded category executors (the
trigger dispatcher with its Form/Chat/Manual handlers, the condition dispatcher
with its If/Switch/Filter/Loop/Stop handlers, and the HTTP response processing)
satisfies the Node Execution Result invariant: success implies no error field,
failure implies a non-empty human-readable message (with `data` optionally
carrying the diagnostic payload, as in the non-2xx HTTP case). -/
theorem c9_result_invariant (env : Env) (nodeId : String) (cfg : NodeConfig)
    (ctx : ExecutionContext) (fo : FormOutcome) (co : ChatOutcome)
    (url method : String) (headers : Option (List (String × String)))
    (qp : List (String × String)) (resp : HttpResponse) (elapsedMs : Int) :
    resultOk (executeTriggerCategory env cfg ctx fo co) ∧
    resultOk (executeConditionCategory env nodeId cfg ctx).1 ∧
    resultOk (executeHttpFetch url method headers qp resp elapsedMs) := by
  refine ⟨?_, ?_, executeHttpFetch_ok url method headers qp resp elapsedMs⟩
  · unfold executeTriggerCategory
    by_cases h1 : cfg.nodeType = "Chat"
    · simp only [h1, if_pos rfl]
      exact executeChatTriggerNode_ok env co
    · simp only [if_neg h1]
      by_cases h2 : cfg.nodeType = "Form"
      · simp only [h2, if_pos rfl]
        exact executeFormTriggerNode_ok env cfg fo
      · simp only [if_neg h2]
        by_cases h3 : cfg.nodeType = "Manual Trigger"
        · simp only [h3, if_pos rfl]
          exact resultOk_of_success rfl rfl
        · simp only [if_neg h3]
          exact resultOk_of_fail rfl
            ⟨_, rfl, by (repeat' apply string_append_ne_empty); decide⟩
  · unfold executeConditionCategory
    by_cases h1 : cfg.nodeType = "If Condition"
    · simp only [h1, if_pos rfl]
      exact executeIfConditionNode_ok env cfg ctx
    · simp only [if_neg h1]
      by_cases h2 : cfg.nodeType = "Switch Case"
      · simp only [h2, if_pos rfl]
        exact executeSwitchNode_ok env cfg ctx
      · simp only [if_neg h2]
        by_cases h3 : cfg.nodeType = "Filter"
        · simp only [h3, if_pos rfl]
          exact executeFilterNode_ok env cfg ctx
        · simp only [if_neg h3]
          by_cases h4 : cfg.nodeType = "Loop"
          · simp only [h4, if_pos rfl]
            exact executeLoopNode_ok env nodeId cfg ctx
          · simp only [if_neg h4]
            by_cases h5 : cfg.nodeType = "Stop"
            · simp only [h5, if_pos rfl]
              exact resultOk_of_success rfl rfl
            · simp only [if_neg h5]
              exact resultOk_of_fail rfl
                ⟨_, rfl, by (repeat' apply string_append_ne_empty); decide⟩

end Workflow
